import Mathlib

/-! # MaidSafe-RUDP: acknowledgment packet codec, session state machine, test network set-up

A shallow embedding of

* `src/maidsafe/rudp/packets/ack_packet.h` (class `RudpAckPacket`),
* `src/maidsafe-dht/transport/rudp_session.h` (class `RudpSession`),
* `src/maidsafe/rudp/tests/test_utils.cc` (`GetRandomPort`, `SetupNetwork`, `Node`).

Machine integers are natural numbers with explicit reduction modulo `2 ^ w`.
A byte buffer is a list of natural numbers; a read of an index past the end of the
buffer is an observable outcome (`none`) of the functions that read buffers.
-/

namespace maidsafe

/-! ## Byte buffers -/

/-- A byte buffer (`boost::asio::const_buffer` / `mutable_buffer`): its bytes in order. -/
abbrev Buffer := List Nat

/-- Read of the byte at index `i`; `none` is a read past the end of the buffer. -/
def readByte (buffer : Buffer) (i : Nat) : Option Nat := buffer[i]?

/-- Modelled from the spec: the helper that reads a 32-bit integer is missing from the
sources; "multi-byte integer fields use a single fixed byte order (network order)", so the four
bytes at `offset` are read most significant first. -/
def DecodeUint32 (buffer : Buffer) (offset : Nat) : Option Nat := do
  let b0 ← readByte buffer offset
  let b1 ← readByte buffer (offset + 1)
  let b2 ← readByte buffer (offset + 2)
  let b3 ← readByte buffer (offset + 3)
  pure (b0 * 16777216 + b1 * 65536 + b2 * 256 + b3)

/-- Modelled from the spec: the helper that writes a 32-bit integer is missing from the
sources; the four bytes of `n` in network order, most significant first. -/
def EncodeUint32 (n : Nat) : List Nat :=
  [n / 16777216 % 256, n / 65536 % 256, n / 256 % 256, n % 256]

/-! ## Control packet header -/

namespace RudpControlPacket

/-- Modelled from the spec: `rudp_control_packet.h` is missing; the common header holds the
packet-type tag (reserved high bit and type code) in its first 32-bit word, then the
additional-info field, the timestamp and the destination socket id, one 32-bit word each. -/
def kHeaderSize : Nat := 16

end RudpControlPacket

/-- Modelled from the spec: the base class `RudpControlPacket` is missing; its fields are the
type code, the additional-info field, the timestamp and the destination socket id. -/
structure RudpControlPacket where
  type_ : Nat
  additional_info_ : Nat
  time_stamp_ : Nat
  destination_socket_id_ : Nat
deriving DecidableEq, Repr

namespace RudpControlPacket

/-- Modelled from the spec: `RudpControlPacket::IsValidBase` is missing; the "cheap structural
check (minimum length, type tag)": the buffer holds at least a header, the reserved high bit that
distinguishes control packets from data packets is set, and the type code is the expected one.
The length is tested before any byte is read. -/
def IsValidBase (buffer : Buffer) (expected_packet_type : Nat) : Option Bool :=
  if buffer.length < kHeaderSize then some false
  else do
    let d0 ← readByte buffer 0
    let d1 ← readByte buffer 1
    pure (decide (128 ≤ d0 % 256) && decide (d0 % 128 * 256 + d1 = expected_packet_type))

/-- Modelled from the spec: `RudpControlPacket::DecodeBase` is missing; after the structural
check the type code, additional-info field, timestamp and destination socket id are read from
the header. On failure the packet is left as it was. -/
def DecodeBase (self : RudpControlPacket) (buffer : Buffer) (expected_packet_type : Nat) :
    Option (Bool × RudpControlPacket) := do
  let valid ← IsValidBase buffer expected_packet_type
  if !valid then pure (false, self)
  else do
    let d0 ← readByte buffer 0
    let d1 ← readByte buffer 1
    let additional_info ← DecodeUint32 buffer 4
    let time_stamp ← DecodeUint32 buffer 8
    let destination_socket_id ← DecodeUint32 buffer 12
    pure (true, { type_ := d0 % 128 * 256 + d1,
                  additional_info_ := additional_info,
                  time_stamp_ := time_stamp,
                  destination_socket_id_ := destination_socket_id })

/-- Modelled from the spec: `RudpControlPacket::EncodeBase` is missing; the bytes of the header:
reserved high bit set, 15-bit type code, 16 zero bits, then the three 32-bit fields. -/
def EncodeBase (self : RudpControlPacket) : List Nat :=
  [self.type_ / 256 % 128 + 128, self.type_ % 256, 0, 0]
    ++ EncodeUint32 self.additional_info_
    ++ EncodeUint32 self.time_stamp_
    ++ EncodeUint32 self.destination_socket_id_

end RudpControlPacket

/-! ## Acknowledgment packet (`ack_packet.h`) -/

/-- The class `RudpAckPacket`: the base control packet and the private fields of
`ack_packet.h`, lines 72-78. -/
structure RudpAckPacket where
  base : RudpControlPacket
  packet_sequence_number_ : Nat
  has_optional_fields_ : Bool
  round_trip_time_ : Nat
  round_trip_time_variance_ : Nat
  available_buffer_size_ : Nat
  packets_receiving_rate_ : Nat
  estimated_link_capacity_ : Nat
deriving DecidableEq, Repr

namespace RudpAckPacket

/-- The constant `enum { kPacketSize = RudpControlPacket::kHeaderSize + 4 }`, for a header size. -/
def kPacketSize (kHeaderSize : Nat) : Nat := kHeaderSize + 4

/-- The constant `enum { kOptionalPacketSize = RudpControlPacket::kHeaderSize + 24 }`, for a
header size. -/
def kOptionalPacketSize (kHeaderSize : Nat) : Nat := kHeaderSize + 24

/-- The constant `enum { kPacketType = 2 }`. -/
def kPacketType : Nat := 2

/-- The optional fields of the encoded packet, in the order of their accessors
(`ack_packet.h`, lines 48-65); each is a `boost::uint32_t`. -/
def optionalFields (self : RudpAckPacket) : List Nat :=
  [self.round_trip_time_, self.round_trip_time_variance_, self.available_buffer_size_,
   self.packets_receiving_rate_, self.estimated_link_capacity_]

/-- Size in bytes of an encoded `boost::uint32_t`. -/
def kUint32Size : Nat := 4

/-- Modelled from the spec: the constructor `RudpAckPacket()` is missing; a packet of type
`kPacketType` with every field zero and no optional fields. -/
def new : RudpAckPacket :=
  { base := { type_ := kPacketType, additional_info_ := 0, time_stamp_ := 0,
              destination_socket_id_ := 0 },
    packet_sequence_number_ := 0, has_optional_fields_ := false,
    round_trip_time_ := 0, round_trip_time_variance_ := 0, available_buffer_size_ := 0,
    packets_receiving_rate_ := 0, estimated_link_capacity_ := 0 }

/-- Modelled from the spec: the body is missing; the class has no field for "the sequence
number being acknowledged", which is carried by the additional-info field of the header. -/
def AckSequenceNumber (self : RudpAckPacket) : Nat := self.base.additional_info_

/-- Accessor `PacketSequenceNumber()`. -/
def PacketSequenceNumber (self : RudpAckPacket) : Nat := self.packet_sequence_number_

/-- Accessor `HasOptionalFields()`. -/
def HasOptionalFields (self : RudpAckPacket) : Bool := self.has_optional_fields_

/-- Accessor `RoundTripTime()`. -/
def RoundTripTime (self : RudpAckPacket) : Nat := self.round_trip_time_

/-- Accessor `RoundTripTimeVariance()`. -/
def RoundTripTimeVariance (self : RudpAckPacket) : Nat := self.round_trip_time_variance_

/-- Accessor `AvailableBufferSize()`. -/
def AvailableBufferSize (self : RudpAckPacket) : Nat := self.available_buffer_size_

/-- Accessor `PacketsReceivingRate()`. -/
def PacketsReceivingRate (self : RudpAckPacket) : Nat := self.packets_receiving_rate_

/-- Accessor `EstimatedLinkCapacity()`. -/
def EstimatedLinkCapacity (self : RudpAckPacket) : Nat := self.estimated_link_capacity_

/-- The layout a received buffer of `length` bytes has, by its length alone: `some false` for
the short layout, `some true` for the layout with the optional fields, `none` for neither. -/
def layoutOfLength (kHeaderSize length : Nat) : Option Bool :=
  if length = kPacketSize kHeaderSize then some false
  else if length = kOptionalPacketSize kHeaderSize then some true
  else none

/-- Modelled from the spec: the body of `RudpAckPacket::IsValid` is missing; the "cheap
structural check (minimum length, type tag) without full decode" for the acknowledgment type. -/
def IsValid (buffer : Buffer) : Option Bool :=
  RudpControlPacket.IsValidBase buffer kPacketType

/-- Modelled from the spec: the body of `RudpAckPacket::Decode` is missing; the "full parse,
fails if length does not match any valid layout for the packet's type": the layout is
determined from the length of the buffer, the packet sequence number follows the header, and
the five optional fields follow it in the long layout. The decoded packet is a function of the
buffer: without the optional block the optional fields are unset (zero). On failure the packet
is left as it was. The result is the returned `bool` and the packet afterwards. -/
def Decode (self : RudpAckPacket) (buffer : Buffer) : Option (Bool × RudpAckPacket) := do
  let valid ← IsValid buffer
  if !valid then pure (false, self)
  else
    match layoutOfLength RudpControlPacket.kHeaderSize buffer.length with
    | none => pure (false, self)
    | some optional => do
      let (ok, base) ← self.base.DecodeBase buffer kPacketType
      if !ok then pure (false, self)
      else do
        let packet_sequence_number ← DecodeUint32 buffer RudpControlPacket.kHeaderSize
        if optional then do
          let round_trip_time ← DecodeUint32 buffer (RudpControlPacket.kHeaderSize + 4)
          let round_trip_time_variance ← DecodeUint32 buffer (RudpControlPacket.kHeaderSize + 8)
          let available_buffer_size ← DecodeUint32 buffer (RudpControlPacket.kHeaderSize + 12)
          let packets_receiving_rate ← DecodeUint32 buffer (RudpControlPacket.kHeaderSize + 16)
          let estimated_link_capacity ←
            DecodeUint32 buffer (RudpControlPacket.kHeaderSize + 20)
          pure (true, { base := base,
                        packet_sequence_number_ := packet_sequence_number,
                        has_optional_fields_ := true,
                        round_trip_time_ := round_trip_time,
                        round_trip_time_variance_ := round_trip_time_variance,
                        available_buffer_size_ := available_buffer_size,
                        packets_receiving_rate_ := packets_receiving_rate,
                        estimated_link_capacity_ := estimated_link_capacity })
        else
          pure (true, { base := base,
                        packet_sequence_number_ := packet_sequence_number,
                        has_optional_fields_ := false,
                        round_trip_time_ := 0,
                        round_trip_time_variance_ := 0,
                        available_buffer_size_ := 0,
                        packets_receiving_rate_ := 0,
                        estimated_link_capacity_ := 0 })

/-- The canonical layout of a packet: header, packet sequence number and, when the packet has
them, the five optional fields. -/
def encodedBytes (self : RudpAckPacket) : List Nat :=
  self.base.EncodeBase ++ EncodeUint32 self.packet_sequence_number_
    ++ (if self.has_optional_fields_ then
          EncodeUint32 self.round_trip_time_ ++ EncodeUint32 self.round_trip_time_variance_
            ++ EncodeUint32 self.available_buffer_size_
            ++ EncodeUint32 self.packets_receiving_rate_
            ++ EncodeUint32 self.estimated_link_capacity_
        else [])

/-- The length of the layout `Encode` writes for a packet. -/
def encodedSize (self : RudpAckPacket) : Nat :=
  if self.has_optional_fields_ then kOptionalPacketSize RudpControlPacket.kHeaderSize
  else kPacketSize RudpControlPacket.kHeaderSize

/-- Modelled from the spec: the body of `RudpAckPacket::Encode` is missing; it "writes the
canonical layout, always producing the minimal form (omits optional fields if not applicable,
matching `kPacketSize`; includes them and uses `kOptionalPacketSize` otherwise)". The result is
the number of bytes written and the buffer afterwards; a buffer too small for the layout is left
as it was and 0 is returned. -/
def Encode (self : RudpAckPacket) (buffer : Buffer) : Nat × Buffer :=
  if buffer.length < self.encodedSize then (0, buffer)
  else (self.encodedSize, self.encodedBytes ++ buffer.drop self.encodedSize)

/-- The bytes `Encode` has written: the first `n` bytes of the buffer afterwards, for the
returned `n`. -/
def written (result : Nat × Buffer) : Buffer := result.2.take result.1

/-- A valid acknowledgment packet: its type is `kPacketType`, every field is a 32-bit value, and
without optional fields the optional fields are unset (zero, as constructed). -/
def Valid (self : RudpAckPacket) : Prop :=
  self.base.type_ = kPacketType ∧
  self.base.additional_info_ < 4294967296 ∧
  self.base.time_stamp_ < 4294967296 ∧
  self.base.destination_socket_id_ < 4294967296 ∧
  self.packet_sequence_number_ < 4294967296 ∧
  (∀ x ∈ self.optionalFields, x < 4294967296) ∧
  (self.has_optional_fields_ = false → ∀ x ∈ self.optionalFields, x = 0)

/-- A packet with optional fields, each field with bytes of its own. -/
def samplePacket : RudpAckPacket :=
  { base := { type_ := 2, additional_info_ := 4294967295, time_stamp_ := 16909060,
              destination_socket_id_ := 305419896 },
    packet_sequence_number_ := 2147483648, has_optional_fields_ := true,
    round_trip_time_ := 100000, round_trip_time_variance_ := 257, available_buffer_size_ := 65536,
    packets_receiving_rate_ := 16, estimated_link_capacity_ := 4278190080 }

end RudpAckPacket

/-! ## Session (`rudp_session.h`) -/

/-- Modelled from the spec: `rudp_handshake_packet.h` is missing; a handshake packet offers the
sender's socket id and starting sequence number, and its content is or is not "a well-formed
handshake matching protocol/version expectations". -/
structure RudpHandshakePacket where
  well_formed_ : Bool
  socket_id_ : Nat
  initial_packet_sequence_number_ : Nat
deriving DecidableEq, Repr

/-- Modelled from the spec: the class `RudpPeer` is only declared; the peer holds the remote
socket id used "for addressing responses", the sequence state, and receives the handshake
packets the session emits. -/
structure RudpPeer where
  id_ : Nat
  sequence_number_ : Nat
  sent_ : List RudpHandshakePacket
deriving DecidableEq, Repr

namespace RudpSession

/-- The type `enum Mode { kClient, kServer }`. -/
inductive Mode where
  | kClient
  | kServer
deriving DecidableEq, Repr

/-- Modelled from the spec: the states of the session, "`Unopened`, `AwaitingHandshake`
(client sent first handshake, or server awaiting client's), `Connected`, and a terminal
`Closed` reached only via explicit close". -/
inductive State where
  | Unopened
  | AwaitingHandshake
  | Connected
  | Closed
deriving DecidableEq, Repr

end RudpSession

/-- The class `RudpSession`. The members `peer_`, `id_`, `mode_` and `connected_` are its data
members (`rudp_session.h`, lines 68-78); the peer is held by reference, so its state travels
with the session. The member `state_` is modelled from the spec: the state the session is in,
for which the header declares no member of its own and whose representation is in the missing
bodies. -/
structure RudpSession where
  peer_ : RudpPeer
  id_ : Nat
  mode_ : RudpSession.Mode
  connected_ : Bool
  state_ : RudpSession.State
deriving DecidableEq, Repr

namespace RudpSession

/-- Modelled from the spec: the constructor body is missing; a session is "created unopened":
no id, not connected. -/
def new (peer : RudpPeer) : RudpSession :=
  { peer_ := peer, id_ := 0, mode_ := Mode.kClient, connected_ := false,
    state_ := State.Unopened }

/-- Modelled from the spec: the body is missing; "get whether the session is already open. May
not be connected": the session is open in the states `AwaitingHandshake` and `Connected`. -/
def IsOpen (self : RudpSession) : Bool :=
  match self.state_ with
  | State.AwaitingHandshake => true
  | State.Connected => true
  | State.Unopened => false
  | State.Closed => false

/-- Modelled from the spec: the body is missing; the connected flag. -/
def IsConnected (self : RudpSession) : Bool := self.connected_

/-- Modelled from the spec: the body is missing; "valid only from `Unopened`; assigns local
socket id and starting sequence number, records mode, transitions to `AwaitingHandshake`"; in
that state the "client sent first handshake". After `Close` "re-`Open` is permitted", so a
closed session is opened in the same way. An open session is left as it is. -/
def Open (self : RudpSession) (id sequence_number : Nat) (mode : Mode) : RudpSession :=
  if self.IsOpen then self
  else
    { peer_ :=
        { id_ := self.peer_.id_,
          sequence_number_ := sequence_number,
          sent_ :=
            match mode with
            | Mode.kClient =>
              self.peer_.sent_ ++
                [{ well_formed_ := true, socket_id_ := id,
                   initial_packet_sequence_number_ := sequence_number }]
            | Mode.kServer => self.peer_.sent_ },
      id_ := id,
      mode_ := mode,
      connected_ := false,
      state_ := State.AwaitingHandshake }

/-- Modelled from the spec: the body is missing; "from any state, clears id and sequence
state, transitions to `Closed`", and the session is no longer connected. -/
def Close (self : RudpSession) : RudpSession :=
  { peer_ := { id_ := self.peer_.id_, sequence_number_ := 0, sent_ := self.peer_.sent_ },
    id_ := 0,
    mode_ := self.mode_,
    connected_ := false,
    state_ := State.Closed }

/-- Modelled from the spec: the body is missing. In `AwaitingHandshake` a well-formed handshake
makes the session "adopt the peer's offered socket id for addressing responses, mark
`connected = true`, transition to `Connected`", a server first emitting "a reciprocal handshake
packet back to the peer"; malformed content "is discarded silently". While connected a
handshake is a no-op or is rejected, "connection unaffected". An unopened or closed session is
not in a state that handles handshakes and is left as it is. -/
def HandleHandshake (self : RudpSession) (packet : RudpHandshakePacket) : RudpSession :=
  match self.state_ with
  | State.Unopened => self
  | State.Closed => self
  | State.Connected => self
  | State.AwaitingHandshake =>
    if !packet.well_formed_ then self
    else
      { peer_ :=
          { id_ := packet.socket_id_,
            sequence_number_ := self.peer_.sequence_number_,
            sent_ :=
              match self.mode_ with
              | Mode.kClient => self.peer_.sent_
              | Mode.kServer =>
                self.peer_.sent_ ++
                  [{ well_formed_ := true, socket_id_ := self.id_,
                     initial_packet_sequence_number_ := self.peer_.sequence_number_ }] },
        id_ := self.id_,
        mode_ := self.mode_,
        connected_ := true,
        state_ := State.Connected }

/-- One call on a session. -/
inductive Call where
  | Open (id sequence_number : Nat) (mode : Mode)
  | Close
  | HandleHandshake (packet : RudpHandshakePacket)
deriving DecidableEq, Repr

/-- The effect of one call. -/
def step (self : RudpSession) : Call → RudpSession
  | Call.Open id sequence_number mode => self.Open id sequence_number mode
  | Call.Close => self.Close
  | Call.HandleHandshake packet => self.HandleHandshake packet

/-- The session after a sequence of calls. -/
def run (self : RudpSession) (calls : List Call) : RudpSession := calls.foldl step self

/-- Whether a call is not an `Open`. -/
def Call.isNotOpen : Call → Bool
  | Call.Open _ _ _ => false
  | Call.Close => true
  | Call.HandleHandshake _ => true

/-- A connected session: a server opened with id 5 that has received a well-formed handshake
offering the socket id 7. -/
def connectedSample : RudpSession :=
  ((RudpSession.new ⟨0, 0, []⟩).Open 5 1 Mode.kServer).HandleHandshake ⟨true, 7, 1⟩

end RudpSession

/-! ## Test utilities (`test_utils.cc`) -/

namespace rudp

namespace test

/-! ### `GetRandomPort` -/

/-- The state `GetRandomPort` keeps between calls: the function-local
`static std::set<uint16_t> already_used_ports`, and how many values `RandomUint32` has
produced so far. -/
structure PortState where
  already_used_ports : List Nat
  random_calls : Nat
deriving DecidableEq, Repr

/-- The state before the first call: the set is empty. -/
def PortState.initial : PortState := { already_used_ports := [], random_calls := 0 }

/-- The port computed from a value of `RandomUint32`,
`port = (RandomUint32() % 48126) + 1025`: unsigned 32-bit arithmetic, then the conversion to
`uint16_t`. -/
def portOf (r : Nat) : Nat := (r % 4294967296 % 48126 + 1025) % 4294967296 % 65536

/-- The call `std::set::insert`: the set afterwards and whether the value was inserted. -/
def setInsert (s : List Nat) (x : Nat) : List Nat × Bool :=
  if x ∈ s then (s, false) else (x :: s, true)

/-- The function `GetRandomPort()`: the `do ... while (!unique)` loop, at most `fuel` rounds of it. The
values of `RandomUint32` are the stream `random`. The result is the returned port and the
state afterwards; `none` when the loop has not ended after `fuel` rounds. -/
def GetRandomPort (random : Nat → Nat) : Nat → PortState → Option (Nat × PortState)
  | 0, _ => none
  | fuel + 1, state =>
    let port := portOf (random state.random_calls)
    let inserted := setInsert state.already_used_ports port
    let unique := inserted.2
    let state1 : PortState :=
      { already_used_ports := inserted.1, random_calls := state.random_calls + 1 }
    if !unique then GetRandomPort random fuel state1 else some (port, state1)

/-- A sequence of `count` calls of `GetRandomPort`, one after the other: the ports returned, in
order, and the state afterwards; `none` when one of the calls does not return. -/
def GetRandomPorts (random : Nat → Nat) (fuel : Nat) : Nat → PortState → Option (List Nat × PortState)
  | 0, state => some ([], state)
  | count + 1, state =>
    match GetRandomPort random fuel state with
    | none => none
    | some (port, state1) =>
      match GetRandomPorts random fuel count state1 with
      | none => none
      | some (ports, state2) => some (port :: ports, state2)

/-! ### `SetupNetwork` -/

/-- The type `Endpoint`: an address and a port. -/
structure Endpoint where
  address : String
  port : Nat
deriving DecidableEq, Repr

/-- The type `EndpointPair`: the members `local` and `external`. -/
structure EndpointPair where
  local_ : Endpoint
  external : Endpoint
deriving DecidableEq, Repr

/-- The text `operator<<` writes for an endpoint. -/
def Endpoint.print (endpoint : Endpoint) : String :=
  endpoint.address ++ ":" ++ toString endpoint.port

/-- The constant members of `Node`. Its other members are written by callbacks that run on
other threads; `SetupNetwork` reads none of them and meets them only through the outcome of the
futures. -/
structure Node where
  kId_ : String
  kValidationData_ : String
deriving DecidableEq, Repr

/-- The constructor `Node::Node(int id)`: `kId_("Node " + lexical_cast<std::string>(id))` and
`kValidationData_(kId_ + std::string("\x27s validation data"))`. -/
def Node.new (id : Int) : Node :=
  { kId_ := "Node " ++ toString id,
    kValidationData_ := "Node " ++ toString id ++ "\x27s validation data" }

/-- The type `testing::AssertionResult`. -/
inductive AssertionResult where
  | AssertionSuccess
  | AssertionFailure (message : String)
deriving DecidableEq, Repr

/-- How a run of `SetupNetwork` ends: it returns a result, or it reads a vector at an index
past its end. -/
inductive Outcome where
  | returned (result : AssertionResult)
  | outOfBounds
deriving DecidableEq, Repr

/-- The outcomes of the calls `SetupNetwork` makes outside `test_utils.cc`. A call is named by
the node that makes it and the node it is about; a run makes each such call at most once, so
this fixes an outcome for every call whatever its arguments and whatever came before it.
`timed_wait` and `get` are the outcome of `timed_wait(bptime::seconds(3))` and of `get()` on the
future of `node` for the messages of `other`. -/
structure World where
  kSuccess : Int
  GetLocalIp : String
  IsValid : Endpoint → Bool
  Bootstrap : (node : Nat) → Endpoint
  GetAvailableEndpoint : (node other : Nat) → Int × EndpointPair
  Add : (node other : Nat) → Int
  timed_wait : (node other : Nat) → Bool
  get : (node other : Nat) → List String

/-- The read `v[i]` on a `std::vector`: the element, or the read past the end. -/
def index {α : Type} (v : List α) (i : Nat) : Except Outcome α :=
  match v[i]? with
  | some x => Except.ok x
  | none => Except.error Outcome.outOfBounds

/-- The statement `return testing::AssertionFailure() << message`. -/
def fail {α : Type} (message : String) : Except Outcome α :=
  Except.error (Outcome.returned (AssertionResult.AssertionFailure message))

/-- The check of the validation data both nodes of a pair received (`test_utils.cc`, lines
88-115 and 184-211): both waits, both sizes, both contents, in this order. `a` is the node of
`futures0` and `b` the node of `futures1`. -/
def checkMessages (w : World) (a b : Nat) (node_a node_b : Node) : Except Outcome Unit := do
  if !w.timed_wait a b then
    fail ("Failed waiting for " ++ node_a.kId_ ++ " to receive " ++ node_b.kId_
      ++ "\x27s validation data.")
  if !w.timed_wait b a then
    fail ("Failed waiting for " ++ node_b.kId_ ++ " to receive " ++ node_a.kId_
      ++ "\x27s validation data.")
  let messages0 := w.get a b
  let messages1 := w.get b a
  if messages0.length != 1 then
    fail (node_a.kId_ ++ " has " ++ toString messages0.length ++ " messages [should be 1].")
  if messages1.length != 1 then
    fail (node_b.kId_ ++ " has " ++ toString messages1.length ++ " messages [should be 1].")
  let message0 ← index messages0 0
  let message1 ← index messages1 0
  if message0 != node_b.kValidationData_ then
    fail (node_a.kId_ ++ " has received " ++ node_b.kId_ ++ "\x27s validation data as "
      ++ message0 ++ " [should be \x22" ++ node_b.kValidationData_ ++ "\x22].")
  if message1 != node_a.kValidationData_ then
    fail (node_b.kId_ ++ " has received " ++ node_a.kId_ ++ "\x27s validation data as "
      ++ message1 ++ " [should be \x22" ++ node_a.kValidationData_ ++ "\x22].")

/-- Setting up the first two nodes (`test_utils.cc`, lines 63-115), for the two endpoints. -/
def setupFirstTwo (w : World) (nodes : List Node) (endpoint0 endpoint1 : Endpoint) :
    Except Outcome Unit := do
  let node0 ← index nodes 0
  let node1 ← index nodes 1
  let chosen_endpoint := w.Bootstrap 0
  if w.Bootstrap 1 != endpoint0 then
    fail "Bootstrapping failed for Node 1"
  if chosen_endpoint != endpoint1 then
    fail "Bootstrapping failed for Node 0"
  if w.Add 0 1 != w.kSuccess then
    fail "Node 0 failed to add Node 1"
  if w.Add 1 0 != w.kSuccess then
    fail "Node 1 failed to add Node 0"
  checkMessages w 0 1 node0 node1

/-- The body of the inner loop (`test_utils.cc`, lines 131-212) for the nodes `i` and `j`: the
endpoint it appends to `bootstrap_endpoints`, unless it returns or reads past the end of a
vector. The endpoint read from `bootstrap_endpoints[j]` selects `peer_endpoint`, which is an
argument of `GetAvailableEndpoint` and nothing else. -/
def connectPair (w : World) (nodes : List Node) (bootstrap_endpoints : List Endpoint)
    (chosen_endpoint : Endpoint) (i j : Nat) : Except Outcome Endpoint := do
  let node_i ← index nodes i
  let node_j ← index nodes j
  let bootstrap_endpoint ← index bootstrap_endpoints j
  let _peer_endpoint : Endpoint :=
    if chosen_endpoint = bootstrap_endpoint then chosen_endpoint else ⟨"0.0.0.0", 0⟩
  let (result_i, this_endpoint_pair) := w.GetAvailableEndpoint i j
  if result_i != w.kSuccess then
    fail ("GetAvailableEndpoint failed for " ++ node_i.kId_ ++ " with result "
      ++ toString result_i ++ ".  Local: " ++ this_endpoint_pair.local_.print
      ++ "  External: " ++ this_endpoint_pair.external.print)
  let (result_j, peer_endpoint_pair) := w.GetAvailableEndpoint j i
  if result_j != w.kSuccess then
    fail ("GetAvailableEndpoint failed for " ++ node_j.kId_ ++ " with result "
      ++ toString result_j ++ ".  Local: " ++ peer_endpoint_pair.local_.print
      ++ "  External: " ++ peer_endpoint_pair.external.print
      ++ "  Peer: " ++ this_endpoint_pair.external.print)
  let add_i := w.Add i j
  if add_i != w.kSuccess then
    fail ("Add failed for " ++ node_i.kId_ ++ " with result " ++ toString add_i)
  let add_j := w.Add j i
  if add_j != w.kSuccess then
    fail ("Add failed for " ++ node_j.kId_ ++ " with result " ++ toString add_j)
  checkMessages w i j node_i node_j
  pure this_endpoint_pair.external

/-- The inner loop `for (int j(0); j != i; ++j)`, from `j` on with `remaining = i - j`
iterations to go: how it ends (`none`: the loop is left at `j == i`) and `bootstrap_endpoints`
afterwards. -/
def innerLoop (w : World) (nodes : List Node) (chosen_endpoint : Endpoint) (i : Nat) :
    (remaining : Nat) → (j : Nat) → List Endpoint → Option Outcome × List Endpoint
  | 0, _, bootstrap_endpoints => (none, bootstrap_endpoints)
  | remaining + 1, j, bootstrap_endpoints =>
    match connectPair w nodes bootstrap_endpoints chosen_endpoint i j with
    | Except.error outcome => (some outcome, bootstrap_endpoints)
    | Except.ok endpoint =>
      innerLoop w nodes chosen_endpoint i remaining (j + 1) (bootstrap_endpoints ++ [endpoint])

/-- The outer loop `for (int i(2); i != node_count; ++i)`, from `i` on with
`remaining = node_count - i` iterations to go: how it ends (`none`: the loop is left at
`i == node_count`) and `bootstrap_endpoints` afterwards. -/
def outerLoop (w : World) (nodes : List Node) :
    (remaining : Nat) → (i : Nat) → List Endpoint → Option Outcome × List Endpoint
  | 0, _, bootstrap_endpoints => (none, bootstrap_endpoints)
  | remaining + 1, i, bootstrap_endpoints =>
    match index nodes i with
    | Except.error outcome => (some outcome, bootstrap_endpoints)
    | Except.ok node_i =>
      let chosen_endpoint := w.Bootstrap i
      if !w.IsValid chosen_endpoint then
        (some (Outcome.returned
          (AssertionResult.AssertionFailure ("Bootstrapping failed for " ++ node_i.kId_))),
         bootstrap_endpoints)
      else
        match innerLoop w nodes chosen_endpoint i i 0 bootstrap_endpoints with
        | (some outcome, bootstrap_endpoints1) => (some outcome, bootstrap_endpoints1)
        | (none, bootstrap_endpoints1) =>
          outerLoop w nodes remaining (i + 1) bootstrap_endpoints1

/-- The vector `nodes` after `nodes.clear()` and the loop
`for (int i(0); i != node_count; ++i) nodes.push_back(std::make_shared<Node>(i))`. -/
def createNodes (node_count : Nat) : List Node :=
  (List.range node_count).map (fun i => Node.new (Int.ofNat i))

/-- What `SetupNetwork` leaves: how it ended, the two vectors it was given by reference, and
the state of `GetRandomPort`. -/
structure SetupResult where
  outcome : Outcome
  nodes : List Node
  bootstrap_endpoints : List Endpoint
  ports : PortState
deriving DecidableEq, Repr

/-- The function `SetupNetwork(nodes, bootstrap_endpoints, node_count)`. The result is `none` when one of
the two calls of `GetRandomPort` does not return within `fuel` rounds. -/
def SetupNetwork (w : World) (random : Nat → Nat) (fuel : Nat) (ports : PortState)
    (nodes : List Node) (bootstrap_endpoints : List Endpoint) (node_count : Int) :
    Option SetupResult :=
  if node_count < 2 then
    some { outcome := Outcome.returned
             (AssertionResult.AssertionFailure "Network size must be greater than 1"),
           nodes := nodes, bootstrap_endpoints := bootstrap_endpoints, ports := ports }
  else
    let nodes1 := createNodes node_count.toNat
    match GetRandomPort random fuel ports with
    | none => none
    | some (port0, ports1) =>
      match GetRandomPort random fuel ports1 with
      | none => none
      | some (port1, ports2) =>
        let endpoint0 : Endpoint := ⟨w.GetLocalIp, port0⟩
        let endpoint1 : Endpoint := ⟨w.GetLocalIp, port1⟩
        match setupFirstTwo w nodes1 endpoint0 endpoint1 with
        | Except.error outcome =>
          some { outcome := outcome, nodes := nodes1, bootstrap_endpoints := [],
                 ports := ports2 }
        | Except.ok _ =>
          match outerLoop w nodes1 (node_count.toNat - 2) 2 [endpoint0, endpoint1] with
          | (some outcome, bootstrap_endpoints1) =>
            some { outcome := outcome, nodes := nodes1,
                   bootstrap_endpoints := bootstrap_endpoints1, ports := ports2 }
          | (none, bootstrap_endpoints1) =>
            some { outcome := Outcome.returned AssertionResult.AssertionSuccess,
                   nodes := nodes1, bootstrap_endpoints := bootstrap_endpoints1,
                   ports := ports2 }

/-- Both nodes of a pair received the validation data of the other: both futures completed
within the wait and each holds exactly one message, the validation data of the other node. -/
def MessagesGood (w : World) (a b : Nat) : Prop :=
  w.timed_wait a b = true ∧ w.timed_wait b a = true ∧
  w.get a b = [(Node.new (Int.ofNat b)).kValidationData_] ∧
  w.get b a = [(Node.new (Int.ofNat a)).kValidationData_]

/-- Every call made for the first two nodes succeeded: the mutual `Bootstrap` returned the
other endpoint, both `Add` calls returned `kSuccess`, and the validation data arrived. -/
def FirstTwoGood (w : World) (endpoint0 endpoint1 : Endpoint) : Prop :=
  w.Bootstrap 1 = endpoint0 ∧ w.Bootstrap 0 = endpoint1 ∧
  w.Add 0 1 = w.kSuccess ∧ w.Add 1 0 = w.kSuccess ∧ MessagesGood w 0 1

/-- Every call made for a later node `i` and an earlier node `j` succeeded: both
`GetAvailableEndpoint` calls and both `Add` calls returned `kSuccess`, and the validation data
arrived. -/
def PairGood (w : World) (i j : Nat) : Prop :=
  (w.GetAvailableEndpoint i j).1 = w.kSuccess ∧ (w.GetAvailableEndpoint j i).1 = w.kSuccess ∧
  w.Add i j = w.kSuccess ∧ w.Add j i = w.kSuccess ∧ MessagesGood w i j

/-- Every external call of a run for `node_count` nodes succeeded. -/
def AllGood (w : World) (node_count : Nat) (endpoint0 endpoint1 : Endpoint) : Prop :=
  FirstTwoGood w endpoint0 endpoint1 ∧
  ∀ i, 2 ≤ i → i < node_count →
    w.IsValid (w.Bootstrap i) = true ∧ ∀ j, j < i → PairGood w i j

/-- A world in which every call succeeds, for the endpoints on the ports 1025 and 1026. -/
def goodWorld : World where
  kSuccess := 0
  GetLocalIp := "127.0.0.1"
  IsValid := fun endpoint => endpoint.port != 0
  Bootstrap := fun node => if node = 0 then ⟨"127.0.0.1", 1026⟩ else ⟨"127.0.0.1", 1025⟩
  GetAvailableEndpoint := fun node other =>
    (0, ⟨⟨"127.0.0.1", 2000 + node⟩, ⟨"127.0.0.1", 3000 + 10 * node + other⟩⟩)
  Add := fun _ _ => 0
  timed_wait := fun _ _ => true
  get := fun _ other => [(Node.new (Int.ofNat other)).kValidationData_]

/-- A world like `goodWorld` in which node 2 receives the validation data of node 1 twice. -/
def duplicateWorld : World where
  kSuccess := 0
  GetLocalIp := "127.0.0.1"
  IsValid := fun endpoint => endpoint.port != 0
  Bootstrap := fun node => if node = 0 then ⟨"127.0.0.1", 1026⟩ else ⟨"127.0.0.1", 1025⟩
  GetAvailableEndpoint := fun node other =>
    (0, ⟨⟨"127.0.0.1", 2000 + node⟩, ⟨"127.0.0.1", 3000 + 10 * node + other⟩⟩)
  Add := fun _ _ => 0
  timed_wait := fun _ _ => true
  get := fun node other =>
    if node = 2 ∧ other = 1 then
      [(Node.new (Int.ofNat other)).kValidationData_, (Node.new (Int.ofNat other)).kValidationData_]
    else [(Node.new (Int.ofNat other)).kValidationData_]

/-! ### `Node`: the future for messages -/

/-- The object `boost::promise<std::vector<std::string>>` as far as `Node` uses it: the values
`set_value` has been called with on this promise, in order. The future of the promise holds the
first of them; a promise is fulfilled at most once when there is at most one. -/
structure Promise where
  set_values : List (List String)
deriving DecidableEq, Repr

/-- Whether the promise already has its value; `set_value` on such a promise throws
`boost::promise_already_satisfied`. -/
def Promise.satisfied (self : Promise) : Bool := !self.set_values.isEmpty

/-- The call `set_value(value)` on a promise, recorded with the promise. -/
def Promise.set_value (self : Promise) (value : List String) : Promise :=
  { set_values := self.set_values ++ [value] }

/-- The members of `Node` that its member functions and its callbacks write
(`test_utils.cc`, lines 223-229). -/
structure NodeState where
  connection_lost_endpoints_ : List Endpoint
  connected_endpoints_ : List Endpoint
  messages_ : List String
  promised_ : Bool
  total_message_count_expectation_ : Nat
  message_promise_ : Promise
deriving DecidableEq, Repr

/-- How far a node has come: it is running with these members, or `set_value` has thrown
`promise_already_satisfied` out of the message callback, leaving these members. -/
inductive Run where
  | running (members : NodeState)
  | thrown (members : NodeState)
deriving DecidableEq, Repr

namespace NodeState

/-- The members as the constructor `Node::Node(int id)` initialises them: empty vectors,
`promised_(false)`, `total_message_count_expectation_(0)`, a new promise. -/
def new : NodeState :=
  { connection_lost_endpoints_ := [], connected_endpoints_ := [], messages_ := [],
    promised_ := false, total_message_count_expectation_ := 0,
    message_promise_ := { set_values := [] } }

/-- The function `Node::SetPromiseIfDone()`: under the condition `set_value(messages_)` is
called, and the two assignments after it are reached when it does not throw. -/
def SetPromiseIfDone (self : NodeState) : Run :=
  if self.promised_ && decide (self.messages_.length ≥ self.total_message_count_expectation_) then
    if self.message_promise_.satisfied then
      Run.thrown
        { self with message_promise_ := self.message_promise_.set_value self.messages_ }
    else
      Run.running
        { self with
          message_promise_ := self.message_promise_.set_value self.messages_,
          promised_ := false,
          total_message_count_expectation_ := 0 }
  else Run.running self

/-- The function `Node::ResetData()`, which holds the mutex. -/
def ResetData (self : NodeState) : NodeState :=
  { self with
    connection_lost_endpoints_ := [],
    messages_ := [],
    total_message_count_expectation_ := 0 }

/-- The first write of `Node::GetFutureForMessages` (`test_utils.cc`, line 286):
`total_message_count_expectation_ = message_count`. -/
def setExpectation (self : NodeState) (message_count : Nat) : NodeState :=
  { self with total_message_count_expectation_ := message_count }

/-- The second write of `Node::GetFutureForMessages` (`test_utils.cc`, line 287):
`promised_ = true`. -/
def setPromised (self : NodeState) : NodeState :=
  { self with promised_ := true }

/-- The third write of `Node::GetFutureForMessages` (`test_utils.cc`, lines 288-290): a new
promise is swapped in for the old one, and its future is returned. -/
def swapPromise (self : NodeState) : NodeState :=
  { self with message_promise_ := { set_values := [] } }

/-- The function `Node::GetFutureForMessages(message_count)` when nothing runs between its
three writes. `BOOST_ASSERT` states the precondition `message_count > 0` and changes nothing.
The function does not take the mutex. -/
def GetFutureForMessages (self : NodeState) (message_count : Nat) : NodeState :=
  ((self.setExpectation message_count).setPromised).swapPromise

/-- The message callback `Node::Bootstrap` registers (`test_utils.cc`, lines 245-258): under
the mutex, `messages_.emplace_back(message)` and `SetPromiseIfDone()`. What it writes to the log
is left out. -/
def messageReceived (self : NodeState) (message : String) : Run :=
  SetPromiseIfDone { self with messages_ := self.messages_ ++ [message] }

/-- The connection-lost callback `Node::Bootstrap` registers (`test_utils.cc`, lines 259-267):
under the mutex, the endpoint is appended to `connection_lost_endpoints_` and erased from
`connected_endpoints_`. -/
def connectionLost (self : NodeState) (endpoint : Endpoint) : NodeState :=
  { self with
    connection_lost_endpoints_ := self.connection_lost_endpoints_ ++ [endpoint],
    connected_endpoints_ := self.connected_endpoints_.filter (fun e => e != endpoint) }

/-- One step of a node that no other step can come between: one of the three writes of
`GetFutureForMessages`, which runs without the mutex, or a whole callback or a whole
`ResetData`, which hold the mutex. -/
inductive Operation where
  | setExpectation (message_count : Nat)
  | setPromised
  | swapPromise
  | messageReceived (message : String)
  | connectionLost (endpoint : Endpoint)
  | ResetData
deriving DecidableEq, Repr

/-- Whether a step is one of the writes of `GetFutureForMessages`. -/
def Operation.isGetFutureForMessages : Operation → Bool
  | Operation.setExpectation _ => true
  | Operation.setPromised => true
  | Operation.swapPromise => true
  | _ => false

/-- Whether a step is a call of `ResetData`. -/
def Operation.isResetData : Operation → Bool
  | Operation.ResetData => true
  | _ => false

/-- The effect of one step. -/
def step (self : NodeState) : Operation → Run
  | Operation.setExpectation message_count => Run.running (self.setExpectation message_count)
  | Operation.setPromised => Run.running self.setPromised
  | Operation.swapPromise => Run.running self.swapPromise
  | Operation.messageReceived message => self.messageReceived message
  | Operation.connectionLost endpoint => Run.running (self.connectionLost endpoint)
  | Operation.ResetData => Run.running self.ResetData

/-- The node after an interleaving of steps, one after the other, up to the first exception. -/
def run (self : NodeState) : List Operation → Run
  | [] => Run.running self
  | operation :: operations =>
    match self.step operation with
    | Run.running members => run members operations
    | Run.thrown members => Run.thrown members

/-- While `promised_` is set the promise has no value, and it never has more than one. -/
def promiseInv (self : NodeState) : Prop :=
  (self.promised_ = true → self.message_promise_.set_values = []) ∧
  self.message_promise_.set_values.length ≤ 1

/-- While `promised_` is set the expectation is `n`, and every value set holds at least `n`
messages. -/
def sizeInv (n : Nat) (self : NodeState) : Prop :=
  (self.promised_ = true → self.total_message_count_expectation_ = n) ∧
  ∀ value ∈ self.message_promise_.set_values, n ≤ value.length

end NodeState

end test

end rudp

end maidsafe
/-! # Theorems -/

namespace maidsafe

open RudpAckPacket RudpControlPacket

/-! ## Acknowledgment packet codec -/

theorem readByte_of_drop (buffer : Buffer) (offset k : Nat) (l : List Nat)
    (h : buffer.drop offset = l) : readByte buffer (offset + k) = l[k]? := by
  rw [← h, List.getElem?_drop]; rfl

theorem DecodeUint32_of_drop (buffer : Buffer) (offset b0 b1 b2 b3 : Nat) (rest : List Nat)
    (h : buffer.drop offset = b0 :: b1 :: b2 :: b3 :: rest) :
    DecodeUint32 buffer offset = some (b0 * 16777216 + b1 * 65536 + b2 * 256 + b3) := by
  have g0 := readByte_of_drop buffer offset 0 _ h
  have g1 := readByte_of_drop buffer offset 1 _ h
  have g2 := readByte_of_drop buffer offset 2 _ h
  have g3 := readByte_of_drop buffer offset 3 _ h
  simp only [Nat.add_zero] at g0
  simp [DecodeUint32, g0, g1, g2, g3]

theorem DecodeUint32_EncodeUint32 (buffer : Buffer) (offset n : Nat) (rest : List Nat)
    (hn : n < 4294967296) (h : buffer.drop offset = EncodeUint32 n ++ rest) :
    DecodeUint32 buffer offset = some n := by
  rw [DecodeUint32_of_drop buffer offset _ _ _ _ rest h]
  congr 1
  omega

theorem encodedBytes_length (P : RudpAckPacket) : P.encodedBytes.length = P.encodedSize := by
  cases h : P.has_optional_fields_ <;>
    simp [encodedBytes, encodedSize, EncodeBase, EncodeUint32, h, kPacketSize, kOptionalPacketSize,
      kHeaderSize]

theorem written_Encode (P : RudpAckPacket) (buffer : Buffer) (hb : P.encodedSize ≤ buffer.length) :
    written (Encode P buffer) = P.encodedBytes := by
  have hlt : ¬ buffer.length < P.encodedSize := by omega
  simp only [Encode, hlt, if_false, written]
  rw [← encodedBytes_length, List.take_left]

theorem IsValidBase_EncodeBase (base : RudpControlPacket) (rest : List Nat) (expected : Nat)
    (hty : base.type_ = expected) (ht : expected < 32768) :
    IsValidBase (base.EncodeBase ++ rest) expected = some true := by
  have h0 : readByte (base.EncodeBase ++ rest) 0 = some (base.type_ / 256 % 128 + 128) := rfl
  have h1 : readByte (base.EncodeBase ++ rest) 1 = some (base.type_ % 256) := rfl
  have hl : ¬ (base.EncodeBase ++ rest).length < kHeaderSize := by
    simp [EncodeBase, EncodeUint32, kHeaderSize]
  simp only [IsValidBase, hl, if_false, h0, h1, Option.bind_eq_bind, Option.some_bind, Option.pure_def]
  congr 1
  simp only [Bool.and_eq_true, decide_eq_true_eq]
  omega

theorem DecodeBase_EncodeBase (self base : RudpControlPacket) (rest : List Nat) (expected : Nat)
    (hty : base.type_ = expected) (ht : expected < 32768) (h2 : base.additional_info_ < 4294967296)
    (h3 : base.time_stamp_ < 4294967296) (h4 : base.destination_socket_id_ < 4294967296) :
    DecodeBase self (base.EncodeBase ++ rest) expected = some (true, base) := by
  have h0 : readByte (base.EncodeBase ++ rest) 0 = some (base.type_ / 256 % 128 + 128) := rfl
  have h1 : readByte (base.EncodeBase ++ rest) 1 = some (base.type_ % 256) := rfl
  have e1 := DecodeUint32_EncodeUint32 (base.EncodeBase ++ rest) 4 base.additional_info_
    (EncodeUint32 base.time_stamp_ ++ EncodeUint32 base.destination_socket_id_ ++ rest) h2 rfl
  have e2 := DecodeUint32_EncodeUint32 (base.EncodeBase ++ rest) 8 base.time_stamp_
    (EncodeUint32 base.destination_socket_id_ ++ rest) h3 rfl
  have e3 := DecodeUint32_EncodeUint32 (base.EncodeBase ++ rest) 12 base.destination_socket_id_
    rest h4 rfl
  simp only [DecodeBase, IsValidBase_EncodeBase base rest expected hty ht, h0, h1, e1, e2, e3,
    Option.bind_eq_bind, Option.some_bind, Option.pure_def, Bool.not_true, Bool.false_eq_true,
    if_false]
  obtain ⟨ty, ai, ts, ds⟩ := base
  simp only [Option.some.injEq, Prod.mk.injEq, true_and, RudpControlPacket.mk.injEq, and_true]
  simp only at hty
  omega

theorem Decode_encodedBytes (self P : RudpAckPacket) (hP : P.Valid) :
    Decode self P.encodedBytes = some (true, P) := by
  obtain ⟨h1, h2, h3, h4, h5, h6, h7⟩ := hP
  have ht : kPacketType < 32768 := by decide
  simp only [optionalFields, List.mem_cons, List.mem_singleton, forall_eq_or_imp, forall_eq,
    List.not_mem_nil, false_imp_iff, implies_true, and_true] at h6 h7
  obtain ⟨ha, hb, hc, hd5, he⟩ := h6
  cases hopt : P.has_optional_fields_
  · obtain ⟨z1, z2, z3, z4, z5⟩ := h7 hopt
    have hlen : (P.encodedBytes).length = 20 := by
      rw [encodedBytes_length]; simp [encodedSize, hopt, kPacketSize, kHeaderSize]
    have e0 := DecodeUint32_EncodeUint32 P.encodedBytes 16 P.packet_sequence_number_ [] h5
      (by simp [encodedBytes, hopt, EncodeBase, EncodeUint32])
    have hv' := IsValidBase_EncodeBase P.base (EncodeUint32 P.packet_sequence_number_) _ h1 ht
    have hd' := DecodeBase_EncodeBase self.base P.base (EncodeUint32 P.packet_sequence_number_) _
      h1 ht h2 h3 h4
    have hb' : P.encodedBytes = P.base.EncodeBase ++ EncodeUint32 P.packet_sequence_number_ := by
      simp [encodedBytes, hopt]
    rw [← hb'] at hv' hd'
    simp only [Decode, IsValid, hv', hd', hlen, e0, layoutOfLength, kPacketSize, kOptionalPacketSize,
      kHeaderSize, Option.bind_eq_bind, Option.some_bind, Option.pure_def, Bool.not_true,
      Bool.false_eq_true, if_false, if_true, Nat.reduceAdd]
    obtain ⟨b, psn, opt, a1, a2, a3, a4, a5⟩ := P
    simp only at hopt z1 z2 z3 z4 z5
    subst hopt z1 z2 z3 z4 z5
    rfl
  · have hlen : (P.encodedBytes).length = 40 := by
      rw [encodedBytes_length]; simp [encodedSize, hopt, kOptionalPacketSize, kHeaderSize]
    have hb' : P.encodedBytes = P.base.EncodeBase ++ (EncodeUint32 P.packet_sequence_number_
        ++ (EncodeUint32 P.round_trip_time_ ++ EncodeUint32 P.round_trip_time_variance_
            ++ EncodeUint32 P.available_buffer_size_ ++ EncodeUint32 P.packets_receiving_rate_
            ++ EncodeUint32 P.estimated_link_capacity_)) := by
      simp [encodedBytes, hopt]
    have hv' := IsValidBase_EncodeBase P.base (EncodeUint32 P.packet_sequence_number_
        ++ (EncodeUint32 P.round_trip_time_ ++ EncodeUint32 P.round_trip_time_variance_
            ++ EncodeUint32 P.available_buffer_size_ ++ EncodeUint32 P.packets_receiving_rate_
            ++ EncodeUint32 P.estimated_link_capacity_)) _ h1 ht
    have hd' := DecodeBase_EncodeBase self.base P.base (EncodeUint32 P.packet_sequence_number_
        ++ (EncodeUint32 P.round_trip_time_ ++ EncodeUint32 P.round_trip_time_variance_
            ++ EncodeUint32 P.available_buffer_size_ ++ EncodeUint32 P.packets_receiving_rate_
            ++ EncodeUint32 P.estimated_link_capacity_)) _ h1 ht h2 h3 h4
    rw [← hb'] at hv' hd'
    have e0 := DecodeUint32_EncodeUint32 P.encodedBytes 16 P.packet_sequence_number_ _ h5
      (by rw [hb']; rfl)
    have e1 := DecodeUint32_EncodeUint32 P.encodedBytes 20 P.round_trip_time_ _ ha
      (by rw [hb']; rfl)
    have e2 := DecodeUint32_EncodeUint32 P.encodedBytes 24 P.round_trip_time_variance_ _ hb
      (by rw [hb']; rfl)
    have e3 := DecodeUint32_EncodeUint32 P.encodedBytes 28 P.available_buffer_size_ _ hc
      (by rw [hb']; rfl)
    have e4 := DecodeUint32_EncodeUint32 P.encodedBytes 32 P.packets_receiving_rate_ _ hd5
      (by rw [hb']; rfl)
    have e5 := DecodeUint32_EncodeUint32 P.encodedBytes 36 P.estimated_link_capacity_ [] he
      (by rw [hb']; rfl)
    simp only [Decode, IsValid, hv', hd', hlen, e0, e1, e2, e3, e4, e5, layoutOfLength,
      kPacketSize, kOptionalPacketSize, kHeaderSize, Option.bind_eq_bind, Option.some_bind,
      Option.pure_def, Bool.not_true, Bool.false_eq_true, if_false, if_true, Nat.reduceAdd,
      Nat.reduceEqDiff]
    obtain ⟨b, psn, opt, a1, a2, a3, a4, a5⟩ := P
    simp only at hopt
    subst hopt
    rfl

/-- C1: for every valid acknowledgment packet `P` (type `kPacketType`, any 32-bit
acknowledged and packet sequence numbers, timestamp and destination socket id, either value of
`HasOptionalFields` and, when it is set, any five 32-bit optional fields) and every output
buffer large enough for its layout, `Decode` applied to the bytes `Encode` has written reads no
byte past their end, returns `true` and leaves a packet equal to `P` in every field, whatever
the decoding packet held before. -/
theorem Decode_Encode_roundtrip (self P : RudpAckPacket) (buffer : Buffer) (hP : P.Valid)
    (hb : P.encodedSize ≤ buffer.length) :
    Decode self (written (Encode P buffer)) = some (true, P) := by
  rw [written_Encode P buffer hb]
  exact Decode_encodedBytes self P hP

theorem samplePacket_Valid : samplePacket.Valid := by
  simp [Valid, samplePacket, optionalFields, kPacketType]

theorem Decode_Encode_roundtrip_witness :
    samplePacket.Valid ∧ samplePacket.encodedSize ≤ (List.replicate 64 255).length ∧
      Decode RudpAckPacket.new (written (Encode samplePacket (List.replicate 64 255)))
        = some (true, samplePacket) :=
  ⟨samplePacket_Valid, by decide,
    Decode_Encode_roundtrip RudpAckPacket.new samplePacket (List.replicate 64 255)
      samplePacket_Valid (by decide)⟩

/-- C2: for every acknowledgment packet and every output buffer large enough for its layout,
`Encode` returns `kPacketSize` when the packet has no optional fields and `kOptionalPacketSize`
when it has them, that many bytes are the ones written (the canonical layout, the rest of the
buffer untouched); and on any buffer a return value other than 0 is the one of these two sizes
that belongs to the packet. -/
theorem Encode_returns_layout_size (P : RudpAckPacket) (buffer : Buffer) :
    (P.encodedSize ≤ buffer.length →
      (P.HasOptionalFields = false → (Encode P buffer).1 = kPacketSize kHeaderSize) ∧
      (P.HasOptionalFields = true → (Encode P buffer).1 = kOptionalPacketSize kHeaderSize) ∧
      (written (Encode P buffer)).length = (Encode P buffer).1 ∧
      written (Encode P buffer) = P.encodedBytes ∧
      (Encode P buffer).2.drop (Encode P buffer).1 = buffer.drop (Encode P buffer).1 ∧
      (Encode P buffer).2.length = buffer.length) ∧
    ((Encode P buffer).1 ≠ 0 →
      P.encodedSize ≤ buffer.length ∧
      (Encode P buffer).1 =
        if P.HasOptionalFields then kOptionalPacketSize kHeaderSize
        else kPacketSize kHeaderSize) := by
  constructor
  · intro hb
    have hw := written_Encode P buffer hb
    have hlt : ¬ buffer.length < P.encodedSize := by omega
    have h1 : (Encode P buffer).1 = P.encodedSize := by simp [Encode, hlt]
    have h2 : (Encode P buffer).2 = P.encodedBytes ++ buffer.drop P.encodedSize := by
      simp [Encode, hlt]
    refine ⟨?_, ?_, ?_, hw, ?_, ?_⟩
    · intro h
      simp only [HasOptionalFields] at h
      simp [h1, encodedSize, h]
    · intro h
      simp only [HasOptionalFields] at h
      simp [h1, encodedSize, h]
    · rw [hw, h1, encodedBytes_length]
    · rw [h1, h2, ← encodedBytes_length, List.drop_left]
    · rw [h2, List.length_append, encodedBytes_length, List.length_drop]
      omega
  · intro h0
    by_cases hlt : buffer.length < P.encodedSize
    · simp [Encode, hlt] at h0
    · refine ⟨by omega, ?_⟩
      have h1 : (Encode P buffer).1 = P.encodedSize := by simp [Encode, hlt]
      rw [h1]
      simp only [HasOptionalFields, encodedSize]

theorem Encode_returns_layout_size_witness :
    samplePacket.encodedSize ≤ (List.replicate 64 255).length ∧
      (Encode samplePacket (List.replicate 64 255)).1 = kOptionalPacketSize kHeaderSize ∧
      (Encode RudpAckPacket.new (List.replicate 64 255)).1 = kPacketSize kHeaderSize ∧
      (Encode samplePacket (List.replicate 64 255)).1 ≠ 0 :=
  ⟨by decide,
    ((Encode_returns_layout_size samplePacket (List.replicate 64 255)).1 (by decide)).2.1 rfl,
    ((Encode_returns_layout_size RudpAckPacket.new (List.replicate 64 255)).1 (by decide)).1 rfl,
    by decide⟩

/-- C3: for every control-header size, `kPacketSize` is the header and the one 32-bit packet
sequence number, `kOptionalPacketSize` is the header and 24 bytes, their difference is 20, the
size of the five optional 32-bit fields, so the two lengths differ and the length of a buffer
alone tells which layout it has: the short one exactly at `kPacketSize`, the one with optional
fields exactly at `kOptionalPacketSize`, and never both. -/
theorem layout_sizes_distinct (kHeaderSize : Nat) (P : RudpAckPacket) (length : Nat) :
    kPacketSize kHeaderSize = kHeaderSize + kUint32Size ∧
    kOptionalPacketSize kHeaderSize = kHeaderSize + 24 ∧
    kOptionalPacketSize kHeaderSize - kPacketSize kHeaderSize = 20 ∧
    P.optionalFields.length = 5 ∧
    P.optionalFields.length * kUint32Size = 20 ∧
    kOptionalPacketSize kHeaderSize
      = kPacketSize kHeaderSize + P.optionalFields.length * kUint32Size ∧
    kPacketSize kHeaderSize ≠ kOptionalPacketSize kHeaderSize ∧
    (layoutOfLength kHeaderSize length = some false ↔ length = kPacketSize kHeaderSize) ∧
    (layoutOfLength kHeaderSize length = some true ↔ length = kOptionalPacketSize kHeaderSize) ∧
    (layoutOfLength kHeaderSize length = none ↔
      length ≠ kPacketSize kHeaderSize ∧ length ≠ kOptionalPacketSize kHeaderSize) := by
  have e1 : kPacketSize kHeaderSize = kHeaderSize + 4 := rfl
  have e2 : kOptionalPacketSize kHeaderSize = kHeaderSize + 24 := rfl
  have e3 : P.optionalFields.length = 5 := rfl
  have e4 : kUint32Size = 4 := rfl
  rw [e1, e2, e3, e4]
  refine ⟨rfl, rfl, by omega, rfl, rfl, by omega, by omega, ?_, ?_, ?_⟩ <;>
    simp only [layoutOfLength, e1, e2]
  · by_cases h1 : length = kHeaderSize + 4
    · simp [h1]
    · by_cases h2 : length = kHeaderSize + 24 <;> simp [h1, h2]
  · by_cases h1 : length = kHeaderSize + 4
    · simp [h1]
    · by_cases h2 : length = kHeaderSize + 24 <;> simp [h1, h2]
  · by_cases h1 : length = kHeaderSize + 4
    · simp [h1]
    · by_cases h2 : length = kHeaderSize + 24 <;> simp [h1, h2]

/-- C4: for every buffer shorter than the control-packet header, the empty one included,
`IsValid` returns `false` and `Decode` returns `false`, leaving the packet as it was, and neither
reads a byte past the end of the buffer. -/
theorem Decode_short_buffer_fails (self : RudpAckPacket) (buffer : Buffer)
    (h : buffer.length < kHeaderSize) :
    IsValid buffer = some false ∧ Decode self buffer = some (false, self) := by
  have hv : IsValid buffer = some false := by
    simp only [IsValid, IsValidBase, h, if_true]
  refine ⟨hv, ?_⟩
  simp [Decode, hv]

theorem Decode_short_buffer_fails_witness :
    ([] : Buffer).length < kHeaderSize ∧ [128, 2, 0, 0, 0, 0, 0, 1].length < kHeaderSize ∧
      (IsValid [] = some false ∧ Decode samplePacket [] = some (false, samplePacket)) ∧
      (IsValid [128, 2, 0, 0, 0, 0, 0, 1] = some false ∧
        Decode samplePacket [128, 2, 0, 0, 0, 0, 0, 1] = some (false, samplePacket)) :=
  ⟨by decide, by decide, Decode_short_buffer_fails samplePacket [] (by decide),
    Decode_short_buffer_fails samplePacket [128, 2, 0, 0, 0, 0, 0, 1] (by decide)⟩

end maidsafe

/-! ## Session -/

namespace maidsafe

open RudpSession

theorem run_append (self : RudpSession) (calls more : List Call) :
    self.run (calls ++ more) = (self.run calls).run more := by
  simp [run, List.foldl_append]

theorem run_unopened (calls : List Call) :
    ∀ self : RudpSession, self.IsOpen = false → self.connected_ = false →
      (∀ call ∈ calls, call.isNotOpen = true) →
      (self.run calls).IsOpen = false ∧ (self.run calls).connected_ = false := by
  induction calls with
  | nil => intro self h1 h2 _; exact ⟨h1, h2⟩
  | cons call calls ih =>
    intro self h1 h2 hall
    have hcall := hall call (List.mem_cons_self _ _)
    have hrest : ∀ c ∈ calls, c.isNotOpen = true :=
      fun c hc => hall c (List.mem_cons_of_mem _ hc)
    have hstep : (self.step call).IsOpen = false ∧ (self.step call).connected_ = false := by
      cases call with
      | Open id sequence_number mode => simp [Call.isNotOpen] at hcall
      | Close => exact ⟨rfl, rfl⟩
      | HandleHandshake packet =>
        cases hstate : self.state_ <;>
          simp [RudpSession.step, RudpSession.HandleHandshake, RudpSession.IsOpen, hstate, h2]
            at h1 ⊢
    exact ih (self.step call) hstep.1 hstep.2 hrest

/-- C7: for every handshake packet, `HandleHandshake` on a session that has never been opened,
or that has been closed and not opened again, leaves `IsConnected() == false`; so does every
sequence of calls without an `Open`, from a new session and from a closed one. -/
theorem HandleHandshake_without_Open (peer : RudpPeer) (self : RudpSession)
    (packet : RudpHandshakePacket) (calls : List Call)
    (hcalls : ∀ call ∈ calls, call.isNotOpen = true) :
    ((RudpSession.new peer).HandleHandshake packet).IsConnected = false ∧
    (self.Close.HandleHandshake packet).IsConnected = false ∧
    (((RudpSession.new peer).run calls).HandleHandshake packet).IsConnected = false ∧
    ((self.Close.run calls).HandleHandshake packet).IsConnected = false := by
  have key : ∀ s : RudpSession, s.IsOpen = false → s.connected_ = false →
      ((s.run calls).HandleHandshake packet).IsConnected = false := by
    intro s h1 h2
    have hall : ∀ call ∈ calls ++ [Call.HandleHandshake packet], call.isNotOpen = true := by
      intro c hc
      rcases List.mem_append.mp hc with hc | hc
      · exact hcalls c hc
      · rw [List.mem_singleton.mp hc]; rfl
    have h := run_unopened (calls ++ [Call.HandleHandshake packet]) s h1 h2 hall
    rw [run_append] at h
    exact h.2
  have key0 : ∀ s : RudpSession, s.IsOpen = false → s.connected_ = false →
      (s.HandleHandshake packet).IsConnected = false := by
    intro s h1 h2
    have h := run_unopened [Call.HandleHandshake packet] s h1 h2
      (by intro c hc; rw [List.mem_singleton.mp hc]; rfl)
    exact h.2
  exact ⟨key0 _ rfl rfl, key0 _ rfl rfl, key _ rfl rfl, key _ rfl rfl⟩

theorem HandleHandshake_without_Open_witness :
    (∀ call ∈ [Call.HandleHandshake ⟨true, 7, 1⟩, Call.Close, Call.HandleHandshake ⟨false, 0, 0⟩],
      call.isNotOpen = true) ∧
    (RudpSession.connectedSample.HandleHandshake ⟨true, 7, 1⟩).IsConnected = true ∧
    ((RudpSession.new ⟨0, 0, []⟩).HandleHandshake ⟨true, 7, 1⟩).IsConnected = false ∧
    (RudpSession.connectedSample.Close.HandleHandshake ⟨true, 7, 1⟩).IsConnected = false ∧
    (((RudpSession.new ⟨0, 0, []⟩).run
        [Call.HandleHandshake ⟨true, 7, 1⟩, Call.Close,
         Call.HandleHandshake ⟨false, 0, 0⟩]).HandleHandshake ⟨true, 7, 1⟩).IsConnected = false ∧
    ((RudpSession.connectedSample.Close.run
        [Call.HandleHandshake ⟨true, 7, 1⟩, Call.Close,
         Call.HandleHandshake ⟨false, 0, 0⟩]).HandleHandshake ⟨true, 7, 1⟩).IsConnected = false :=
  ⟨by decide, by decide,
    HandleHandshake_without_Open ⟨0, 0, []⟩ RudpSession.connectedSample ⟨true, 7, 1⟩
      [Call.HandleHandshake ⟨true, 7, 1⟩, Call.Close, Call.HandleHandshake ⟨false, 0, 0⟩]
      (by decide)⟩

end maidsafe

/-! ## `GetRandomPort` -/

namespace maidsafe.rudp.test

theorem portOf_eq (r : Nat) : portOf r = r % 4294967296 % 48126 + 1025 := by
  unfold portOf
  omega

theorem portOf_range (r : Nat) : 1025 ≤ portOf r ∧ portOf r ≤ 49150 := by
  rw [portOf_eq]
  omega

theorem GetRandomPort_succ (random : Nat → Nat) (fuel : Nat) (state : PortState) :
    GetRandomPort random (fuel + 1) state =
      if portOf (random state.random_calls) ∈ state.already_used_ports then
        GetRandomPort random fuel
          { already_used_ports := state.already_used_ports,
            random_calls := state.random_calls + 1 }
      else
        some (portOf (random state.random_calls),
          { already_used_ports := portOf (random state.random_calls) :: state.already_used_ports,
            random_calls := state.random_calls + 1 }) := by
  by_cases h : portOf (random state.random_calls) ∈ state.already_used_ports <;>
    simp [GetRandomPort, setInsert, h]

theorem GetRandomPort_some (random : Nat → Nat) (fuel : Nat) :
    ∀ (state : PortState) (port : Nat) (state1 : PortState),
      GetRandomPort random fuel state = some (port, state1) →
      ∃ k, k < fuel ∧ port = portOf (random (state.random_calls + k)) ∧
        (∀ m, m < k → portOf (random (state.random_calls + m)) ∈ state.already_used_ports) ∧
        port ∉ state.already_used_ports ∧
        state1 = { already_used_ports := port :: state.already_used_ports,
                   random_calls := state.random_calls + k + 1 } := by
  induction fuel with
  | zero => intro state port state1 h; simp [GetRandomPort] at h
  | succ fuel ih =>
    intro state port state1 h
    rw [GetRandomPort_succ] at h
    by_cases hmem : portOf (random state.random_calls) ∈ state.already_used_ports
    · rw [if_pos hmem] at h
      obtain ⟨k, hk, hport, hbefore, hfresh, hstate⟩ := ih _ port state1 h
      refine ⟨k + 1, by omega, ?_, ?_, hfresh, ?_⟩
      · rw [hport]; simp only []; congr 2; omega
      · intro m hm
        cases m with
        | zero => simpa using hmem
        | succ m =>
          have := hbefore m (by omega)
          simp only [] at this
          have e : state.random_calls + (m + 1) = state.random_calls + 1 + m := by omega
          rw [e]; exact this
      · rw [hstate]; simp only [PortState.mk.injEq, true_and]; omega
    · rw [if_neg hmem] at h
      simp only [Option.some.injEq, Prod.mk.injEq] at h
      obtain ⟨hp, hs⟩ := h
      subst hp
      refine ⟨0, by omega, rfl, ?_, hmem, ?_⟩
      · intro m hm; omega
      · rw [← hs]

theorem GetRandomPort_returns (random : Nat → Nat) (k : Nat) :
    ∀ (state : PortState),
      (∀ m, m < k → portOf (random (state.random_calls + m)) ∈ state.already_used_ports) →
      portOf (random (state.random_calls + k)) ∉ state.already_used_ports →
      ∀ fuel, k < fuel →
        GetRandomPort random fuel state =
          some (portOf (random (state.random_calls + k)),
            { already_used_ports :=
                portOf (random (state.random_calls + k)) :: state.already_used_ports,
              random_calls := state.random_calls + k + 1 }) := by
  induction k with
  | zero =>
    intro state _ hfresh fuel hfuel
    obtain ⟨fuel, rfl⟩ : ∃ f, fuel = f + 1 := ⟨fuel - 1, by omega⟩
    rw [GetRandomPort_succ]
    simp only [Nat.add_zero] at hfresh ⊢
    rw [if_neg hfresh]
  | succ k ih =>
    intro state hbefore hfresh fuel hfuel
    obtain ⟨fuel, rfl⟩ : ∃ f, fuel = f + 1 := ⟨fuel - 1, by omega⟩
    rw [GetRandomPort_succ]
    have h0 := hbefore 0 (by omega)
    simp only [Nat.add_zero] at h0
    rw [if_pos h0]
    have e : ∀ m, state.random_calls + 1 + m = state.random_calls + (m + 1) := by
      intro m; omega
    have := ih { already_used_ports := state.already_used_ports,
                 random_calls := state.random_calls + 1 }
      (by intro m hm; simp only []; rw [e]; exact hbefore (m + 1) (by omega))
      (by simp only []; rw [e]; exact hfresh) fuel (by omega)
    simp only [e] at this
    rw [this]

theorem GetRandomPort_exhausted (random : Nat → Nat) (fuel : Nat) :
    ∀ (state : PortState),
      (∀ p, 1025 ≤ p → p ≤ 49150 → p ∈ state.already_used_ports) →
      GetRandomPort random fuel state = none := by
  induction fuel with
  | zero => intro state _; rfl
  | succ fuel ih =>
    intro state hall
    rw [GetRandomPort_succ]
    have hmem := hall _ (portOf_range (random state.random_calls)).1
      (portOf_range (random state.random_calls)).2
    rw [if_pos hmem]
    exact ih _ hall

theorem GetRandomPorts_some (random : Nat → Nat) (fuel count : Nat) :
    ∀ (state : PortState) (ports : List Nat) (state1 : PortState),
      GetRandomPorts random fuel count state = some (ports, state1) →
      ports.length = count ∧ ports.Nodup ∧
      (∀ p ∈ ports, 1025 ≤ p ∧ p ≤ 49150 ∧ p ∉ state.already_used_ports) ∧
      (∀ p, p ∈ state1.already_used_ports ↔ p ∈ ports ∨ p ∈ state.already_used_ports) := by
  induction count with
  | zero =>
    intro state ports state1 h
    simp only [GetRandomPorts, Option.some.injEq, Prod.mk.injEq] at h
    obtain ⟨rfl, rfl⟩ := h
    simp
  | succ count ih =>
    intro state ports state1 h
    simp only [GetRandomPorts] at h
    cases h1 : GetRandomPort random fuel state with
    | none => simp [h1] at h
    | some r1 =>
      obtain ⟨port, stateA⟩ := r1
      simp only [h1] at h
      cases h2 : GetRandomPorts random fuel count stateA with
      | none => simp [h2] at h
      | some r2 =>
        obtain ⟨rest, stateB⟩ := r2
        simp only [h2, Option.some.injEq, Prod.mk.injEq] at h
        obtain ⟨rfl, rfl⟩ := h
        obtain ⟨k, _, hport, _, hfresh, hA⟩ := GetRandomPort_some random fuel state port stateA h1
        obtain ⟨hlen, hnodup, hrange, hused⟩ := ih stateA rest stateB h2
        have hAused : stateA.already_used_ports = port :: state.already_used_ports := by
          rw [hA]
        refine ⟨by simp [hlen], ?_, ?_, ?_⟩
        · refine List.nodup_cons.mpr ⟨?_, hnodup⟩
          intro hin
          have := (hrange port hin).2.2
          rw [hAused] at this
          exact this (List.mem_cons_self _ _)
        · intro p hp
          rcases List.mem_cons.mp hp with rfl | hp
          · refine ⟨?_, ?_, hfresh⟩
            · rw [hport]; exact (portOf_range _).1
            · rw [hport]; exact (portOf_range _).2
          · obtain ⟨a, b, c⟩ := hrange p hp
            refine ⟨a, b, ?_⟩
            intro hin
            rw [hAused] at c
            exact c (List.mem_cons_of_mem _ hin)
        · intro p
          rw [hused p, hAused]
          simp only [List.mem_cons]
          tauto

theorem all_ports_handed_out (ports : List Nat) (hlen : ports.length = 48126)
    (hnodup : ports.Nodup) (hrange : ∀ p ∈ ports, 1025 ≤ p ∧ p ≤ 49150) :
    ∀ p, 1025 ≤ p → p ≤ 49150 → p ∈ ports := by
  have hsub : ports.toFinset ⊆ Finset.Icc 1025 49150 := by
    intro p hp
    rw [List.mem_toFinset] at hp
    rw [Finset.mem_Icc]
    exact hrange p hp
  have hcard : (Finset.Icc 1025 49150).card ≤ ports.toFinset.card := by
    rw [List.toFinset_card_of_nodup hnodup, hlen, Nat.card_Icc]
  have heq := Finset.eq_of_subset_of_card_le hsub hcard
  intro p h1 h2
  have : p ∈ ports.toFinset := by
    rw [heq, Finset.mem_Icc]; exact ⟨h1, h2⟩
  exact List.mem_toFinset.mp this

/-- C9: for every stream of values of `RandomUint32`, (1) a call of `GetRandomPort` that
returns gives a port `p` with `1025 <= p <= 49150`, equal to `(r % 48126) + 1025` without
truncation for the last value `r` it drew, which was not in `already_used_ports` and is inserted
there, every value drawn before it in the call having given a used port; (2) the ports a
sequence of calls returns are pairwise different and none was used before; (3) the call returns
as soon as the stream yields a value whose port is not yet used; (4) once every port of the
range is used, in particular after 48126 calls have returned, the call does not return,
however many rounds it is given. -/
theorem GetRandomPort_unique_in_range (random : Nat → Nat) :
    (∀ (fuel : Nat) (state : PortState) (port : Nat) (state1 : PortState),
      GetRandomPort random fuel state = some (port, state1) →
      1025 ≤ port ∧ port ≤ 49150 ∧ port < 65536 ∧
      (∃ k, k < fuel ∧
        port = random (state.random_calls + k) % 4294967296 % 48126 + 1025 ∧
        state1.random_calls = state.random_calls + k + 1 ∧
        ∀ m, m < k → portOf (random (state.random_calls + m)) ∈ state.already_used_ports) ∧
      port ∉ state.already_used_ports ∧
      state1.already_used_ports = port :: state.already_used_ports) ∧
    (∀ (fuel count : Nat) (state : PortState) (ports : List Nat) (state1 : PortState),
      GetRandomPorts random fuel count state = some (ports, state1) →
      ports.length = count ∧ ports.Nodup ∧
      ∀ p ∈ ports, 1025 ≤ p ∧ p ≤ 49150 ∧ p ∉ state.already_used_ports) ∧
    (∀ (state : PortState) (k : Nat),
      (∀ m, m < k → portOf (random (state.random_calls + m)) ∈ state.already_used_ports) →
      portOf (random (state.random_calls + k)) ∉ state.already_used_ports →
      ∀ fuel, k < fuel →
        GetRandomPort random fuel state =
          some (portOf (random (state.random_calls + k)),
            { already_used_ports :=
                portOf (random (state.random_calls + k)) :: state.already_used_ports,
              random_calls := state.random_calls + k + 1 })) ∧
    (∀ (state : PortState),
      (∀ p, 1025 ≤ p → p ≤ 49150 → p ∈ state.already_used_ports) →
      ∀ fuel, GetRandomPort random fuel state = none) ∧
    (∀ (fuel : Nat) (ports : List Nat) (state1 : PortState),
      GetRandomPorts random fuel 48126 PortState.initial = some (ports, state1) →
      ∀ fuel1, GetRandomPort random fuel1 state1 = none) := by
  refine ⟨?_, ?_, ?_, ?_, ?_⟩
  · intro fuel state port state1 h
    obtain ⟨k, hk, hport, hbefore, hfresh, hstate⟩ :=
      GetRandomPort_some random fuel state port state1 h
    have hr := portOf_range (random (state.random_calls + k))
    rw [← hport] at hr
    refine ⟨hr.1, hr.2, by omega, ⟨k, hk, ?_, ?_, hbefore⟩, hfresh, ?_⟩
    · rw [hport, portOf_eq]
    · rw [hstate]
    · rw [hstate]
  · intro fuel count state ports state1 h
    obtain ⟨hlen, hnodup, hrange, _⟩ := GetRandomPorts_some random fuel count state ports state1 h
    exact ⟨hlen, hnodup, hrange⟩
  · intro state k hbefore hfresh fuel hfuel
    exact GetRandomPort_returns random k state hbefore hfresh fuel hfuel
  · intro state hall fuel
    exact GetRandomPort_exhausted random fuel state hall
  · intro fuel ports state1 h fuel1
    obtain ⟨hlen, hnodup, hrange, hused⟩ :=
      GetRandomPorts_some random fuel 48126 PortState.initial ports state1 h
    have hall := all_ports_handed_out ports hlen hnodup
      (fun p hp => ⟨(hrange p hp).1, (hrange p hp).2.1⟩)
    exact GetRandomPort_exhausted random fuel1 state1
      (fun p h1 h2 => (hused p).mpr (Or.inl (hall p h1 h2)))

theorem GetRandomPorts_counting (count : Nat) :
    ∀ (state : PortState), state.random_calls + count ≤ 48126 →
      (∀ p ∈ state.already_used_ports, p < state.random_calls + 1025) →
      ∃ ports state1, GetRandomPorts (fun n => n) 1 count state = some (ports, state1) := by
  induction count with
  | zero => intro state _ _; exact ⟨[], state, rfl⟩
  | succ count ih =>
    intro state hle hused
    have hport : portOf ((fun n => n) state.random_calls) = state.random_calls + 1025 := by
      rw [portOf_eq]; simp only []; omega
    have hfresh : portOf ((fun n => n) (state.random_calls + 0)) ∉ state.already_used_ports := by
      rw [Nat.add_zero, hport]
      intro hin
      exact Nat.lt_irrefl _ (hused _ hin)
    have h1 := GetRandomPort_returns (fun n => n) 0 state (by intro m hm; omega) hfresh 1
      (by omega)
    rw [Nat.add_zero, hport] at h1
    obtain ⟨ports, state1, h2⟩ := ih
      { already_used_ports := (state.random_calls + 1025) :: state.already_used_ports,
        random_calls := state.random_calls + 0 + 1 }
      (by simp only []; omega)
      (by
        intro p hp
        simp only [List.mem_cons] at hp
        rcases hp with rfl | hp
        · simp only []; omega
        · have := hused p hp
          simp only []; omega)
    refine ⟨(state.random_calls + 1025) :: ports, state1, ?_⟩
    simp only [GetRandomPorts, h1, h2]

theorem GetRandomPort_unique_in_range_witness :
    GetRandomPort (fun n => n / 2) 5 PortState.initial = some (1025, ⟨[1025], 1⟩) ∧
    (1025 ≤ 1025 ∧ 1025 ≤ 49150 ∧ 1025 < 65536) ∧
    GetRandomPorts (fun n => n / 2) 5 3 PortState.initial
      = some ([1025, 1026, 1027], ⟨[1027, 1026, 1025], 5⟩) ∧
    [1025, 1026, 1027].Nodup ∧
    GetRandomPort (fun n => n / 2) 3 ⟨[1025], 0⟩ = some (1026, ⟨[1026, 1025], 3⟩) ∧
    GetRandomPort (fun n => n / 2) 1000 ⟨List.range' 1025 48126, 0⟩ = none ∧
    (∃ ports state1,
      GetRandomPorts (fun n => n) 1 48126 PortState.initial = some (ports, state1) ∧
      GetRandomPort (fun n => n) 1000 state1 = none) :=
  ⟨by decide,
    ⟨((GetRandomPort_unique_in_range (fun n => n / 2)).1 5 PortState.initial 1025 ⟨[1025], 1⟩
        (by decide)).1,
     ((GetRandomPort_unique_in_range (fun n => n / 2)).1 5 PortState.initial 1025 ⟨[1025], 1⟩
        (by decide)).2.1,
     ((GetRandomPort_unique_in_range (fun n => n / 2)).1 5 PortState.initial 1025 ⟨[1025], 1⟩
        (by decide)).2.2.1⟩,
    by decide,
    ((GetRandomPort_unique_in_range (fun n => n / 2)).2.1 5 3 PortState.initial
      [1025, 1026, 1027] ⟨[1027, 1026, 1025], 5⟩ (by decide)).2.1,
    (GetRandomPort_unique_in_range (fun n => n / 2)).2.2.1 ⟨[1025], 0⟩ 2
      (by decide) (by decide) 3 (by decide),
    (GetRandomPort_unique_in_range (fun n => n / 2)).2.2.2.1 ⟨List.range' 1025 48126, 0⟩
      (by intro p h1 h2; simp only [List.mem_range']; exact ⟨p - 1025, by omega, by omega⟩) 1000,
    by
      obtain ⟨ports, state1, h⟩ := GetRandomPorts_counting 48126 PortState.initial
        (by decide) (by intro p hp; simp [PortState.initial] at hp)
      exact ⟨ports, state1, h,
        (GetRandomPort_unique_in_range (fun n => n)).2.2.2.2 1 ports state1 h 1000⟩⟩

end maidsafe.rudp.test

/-! ## `SetupNetwork` -/

namespace maidsafe.rudp.test

/-- The conditions `checkMessages` tests, for the nodes it is given. -/
theorem checkMessages_cases (w : World) (a b : Nat) (node_a node_b : Node) :
    ((w.timed_wait a b = true ∧ w.timed_wait b a = true ∧
        w.get a b = [node_b.kValidationData_] ∧ w.get b a = [node_a.kValidationData_]) ∧
      checkMessages w a b node_a node_b = Except.ok ()) ∨
    (¬ (w.timed_wait a b = true ∧ w.timed_wait b a = true ∧
        w.get a b = [node_b.kValidationData_] ∧ w.get b a = [node_a.kValidationData_]) ∧
      ∃ message, checkMessages w a b node_a node_b
        = Except.error (Outcome.returned (AssertionResult.AssertionFailure message))) := by
  unfold checkMessages
  by_cases h1 : w.timed_wait a b = true
  swap
  · right; refine ⟨fun h => h1 h.1, ?_⟩
    simp [h1, fail, bind, Except.bind, pure, Except.pure]
  by_cases h2 : w.timed_wait b a = true
  swap
  · right; refine ⟨fun h => h2 h.2.1, ?_⟩
    simp [h1, h2, fail, bind, Except.bind, pure, Except.pure]
  by_cases h3 : (w.get a b).length = 1
  swap
  · right; refine ⟨fun h => h3 (by rw [h.2.2.1]; rfl), ?_⟩
    simp [h1, h2, h3, fail, bind, Except.bind, pure, Except.pure]
  by_cases h4 : (w.get b a).length = 1
  swap
  · right; refine ⟨fun h => h4 (by rw [h.2.2.2]; rfl), ?_⟩
    simp [h1, h2, h3, h4, fail, bind, Except.bind, pure, Except.pure]
  obtain ⟨m0, hm0⟩ := List.length_eq_one.mp h3
  obtain ⟨m1, hm1⟩ := List.length_eq_one.mp h4
  by_cases h5 : m0 = node_b.kValidationData_
  swap
  · right; refine ⟨fun h => h5 (by have := h.2.2.1; rw [hm0] at this; simpa using this), ?_⟩
    simp [h1, h2, hm0, hm1, h5, fail, index, bind, Except.bind, pure, Except.pure]
  by_cases h6 : m1 = node_a.kValidationData_
  swap
  · right; refine ⟨fun h => h6 (by have := h.2.2.2; rw [hm1] at this; simpa using this), ?_⟩
    simp [h1, h2, hm0, hm1, h5, h6, fail, index, bind, Except.bind, pure, Except.pure]
  left
  refine ⟨⟨h1, h2, by rw [hm0, h5], by rw [hm1, h6]⟩, ?_⟩
  simp [h1, h2, hm0, hm1, h5, h6, fail, index, bind, Except.bind, pure, Except.pure]

theorem createNodes_index (node_count k : Nat) (hk : k < node_count) :
    index (createNodes node_count) k = Except.ok (Node.new (Int.ofNat k)) := by
  simp [index, createNodes, List.getElem?_map, List.getElem?_range hk]

theorem createNodes_length (node_count : Nat) : (createNodes node_count).length = node_count := by
  simp [createNodes]

theorem setupFirstTwo_cases (w : World) (node_count : Nat) (h2 : 2 ≤ node_count)
    (endpoint0 endpoint1 : Endpoint) :
    (FirstTwoGood w endpoint0 endpoint1 ∧
      setupFirstTwo w (createNodes node_count) endpoint0 endpoint1 = Except.ok ()) ∨
    (¬ FirstTwoGood w endpoint0 endpoint1 ∧
      ∃ message, setupFirstTwo w (createNodes node_count) endpoint0 endpoint1
        = Except.error (Outcome.returned (AssertionResult.AssertionFailure message))) := by
  unfold setupFirstTwo FirstTwoGood
  rw [createNodes_index node_count 0 (by omega), createNodes_index node_count 1 (by omega)]
  by_cases h1 : w.Bootstrap 1 = endpoint0
  swap
  · right; refine ⟨fun h => h1 h.1, ?_⟩
    simp [h1, fail, bind, Except.bind, pure, Except.pure]
  by_cases h3 : w.Bootstrap 0 = endpoint1
  swap
  · right; refine ⟨fun h => h3 h.2.1, ?_⟩
    simp [h1, h3, fail, bind, Except.bind, pure, Except.pure]
  by_cases h4 : w.Add 0 1 = w.kSuccess
  swap
  · right; refine ⟨fun h => h4 h.2.2.1, ?_⟩
    simp [h1, h3, h4, fail, bind, Except.bind, pure, Except.pure]
  by_cases h5 : w.Add 1 0 = w.kSuccess
  swap
  · right; refine ⟨fun h => h5 h.2.2.2.1, ?_⟩
    simp [h1, h3, h4, h5, fail, bind, Except.bind, pure, Except.pure]
  rcases checkMessages_cases w 0 1 (Node.new (Int.ofNat 0)) (Node.new (Int.ofNat 1)) with
    ⟨hg, hc⟩ | ⟨hg, message, hc⟩
  · left
    refine ⟨⟨h1, h3, h4, h5, hg⟩, ?_⟩
    simp only [Int.ofNat_eq_coe, Nat.cast_zero, Nat.cast_one, Nat.cast_ofNat] at hc
    simp [h1, h3, h4, h5, hc, fail, bind, Except.bind, pure, Except.pure]
  · right
    refine ⟨fun h => hg h.2.2.2.2, message, ?_⟩
    simp only [Int.ofNat_eq_coe, Nat.cast_zero, Nat.cast_one, Nat.cast_ofNat] at hc
    simp [h1, h3, h4, h5, hc, fail, bind, Except.bind, pure, Except.pure]

theorem connectPair_cases (w : World) (node_count : Nat) (bootstrap_endpoints : List Endpoint)
    (chosen_endpoint : Endpoint) (i j : Nat) (hi : i < node_count) (hj : j < node_count)
    (hb : j < bootstrap_endpoints.length) :
    (PairGood w i j ∧
      connectPair w (createNodes node_count) bootstrap_endpoints chosen_endpoint i j
        = Except.ok (w.GetAvailableEndpoint i j).2.external) ∨
    (¬ PairGood w i j ∧
      ∃ message, connectPair w (createNodes node_count) bootstrap_endpoints chosen_endpoint i j
        = Except.error (Outcome.returned (AssertionResult.AssertionFailure message))) := by
  unfold connectPair PairGood
  rw [createNodes_index node_count i hi, createNodes_index node_count j hj]
  have hidx : index bootstrap_endpoints j = Except.ok (bootstrap_endpoints.get ⟨j, hb⟩) := by
    simp [index, List.getElem?_eq_getElem hb]
  rw [hidx]
  by_cases h1 : (w.GetAvailableEndpoint i j).1 = w.kSuccess
  swap
  · right; refine ⟨fun h => h1 h.1, ?_⟩
    simp [h1, fail, bind, Except.bind, pure, Except.pure]
  by_cases h3 : (w.GetAvailableEndpoint j i).1 = w.kSuccess
  swap
  · right; refine ⟨fun h => h3 h.2.1, ?_⟩
    simp [h1, h3, fail, bind, Except.bind, pure, Except.pure]
  by_cases h4 : w.Add i j = w.kSuccess
  swap
  · right; refine ⟨fun h => h4 h.2.2.1, ?_⟩
    simp [h1, h3, h4, fail, bind, Except.bind, pure, Except.pure]
  by_cases h5 : w.Add j i = w.kSuccess
  swap
  · right; refine ⟨fun h => h5 h.2.2.2.1, ?_⟩
    simp [h1, h3, h4, h5, fail, bind, Except.bind, pure, Except.pure]
  rcases checkMessages_cases w i j (Node.new (Int.ofNat i)) (Node.new (Int.ofNat j)) with
    ⟨hg, hc⟩ | ⟨hg, message, hc⟩
  · left
    refine ⟨⟨h1, h3, h4, h5, hg⟩, ?_⟩
    simp only [Int.ofNat_eq_coe, Nat.cast_zero, Nat.cast_one, Nat.cast_ofNat] at hc
    simp [h1, h3, h4, h5, hc, fail, bind, Except.bind, pure, Except.pure]
  · right
    refine ⟨fun h => hg h.2.2.2.2, message, ?_⟩
    simp only [Int.ofNat_eq_coe, Nat.cast_zero, Nat.cast_one, Nat.cast_ofNat] at hc
    simp [h1, h3, h4, h5, hc, fail, bind, Except.bind, pure, Except.pure]

theorem pairs_succ (i : Nat) : (i + 1) * (i + 1 - 1) / 2 = i * (i - 1) / 2 + i := by
  cases i with
  | zero => rfl
  | succ k =>
    have h : (k + 1 + 1) * (k + 1 + 1 - 1) = (k + 1) * (k + 1 - 1) + (k + 1) * 2 := by
      simp only [Nat.add_sub_cancel]
      ring
    rw [h, Nat.add_mul_div_right _ _ (by decide : 0 < 2)]

theorem innerLoop_cases (w : World) (node_count : Nat) (chosen_endpoint : Endpoint) (i : Nat)
    (hi : i < node_count) :
    ∀ (remaining j : Nat) (bootstrap_endpoints : List Endpoint),
      j + remaining = i → j < bootstrap_endpoints.length →
      ((∀ k, j ≤ k → k < i → PairGood w i k) ∧
        ∃ endpoints1,
          innerLoop w (createNodes node_count) chosen_endpoint i remaining j bootstrap_endpoints
            = (none, endpoints1) ∧
          endpoints1.length = bootstrap_endpoints.length + remaining) ∨
      (¬ (∀ k, j ≤ k → k < i → PairGood w i k) ∧
        ∃ message endpoints1,
          innerLoop w (createNodes node_count) chosen_endpoint i remaining j bootstrap_endpoints
            = (some (Outcome.returned (AssertionResult.AssertionFailure message)),
               endpoints1)) := by
  intro remaining
  induction remaining with
  | zero =>
    intro j bootstrap_endpoints hsum _
    left
    refine ⟨?_, bootstrap_endpoints, rfl, rfl⟩
    intro k h1 h2
    omega
  | succ remaining ih =>
    intro j bootstrap_endpoints hsum hb
    rcases connectPair_cases w node_count bootstrap_endpoints chosen_endpoint i j hi
      (by omega) hb with ⟨hg, hc⟩ | ⟨hg, message, hc⟩
    · rcases ih (j + 1) (bootstrap_endpoints ++ [(w.GetAvailableEndpoint i j).2.external])
        (by omega) (by simp; omega) with ⟨hall, endpoints1, hrun, hlen⟩ | ⟨hnot, message, endpoints1, hrun⟩
      · left
        refine ⟨?_, endpoints1, ?_, ?_⟩
        · intro k h1 h2
          rcases Nat.eq_or_lt_of_le h1 with rfl | hlt
          · exact hg
          · exact hall k hlt h2
        · simp only [innerLoop, hc, hrun]
        · rw [hlen]; simp; omega
      · right
        refine ⟨fun h => hnot (fun k h1 h2 => h k (by omega) h2), message, endpoints1, ?_⟩
        simp only [innerLoop, hc, hrun]
    · right
      refine ⟨fun h => hg (h j (Nat.le_refl j) (by omega)), message, bootstrap_endpoints, ?_⟩
      simp only [innerLoop, hc]

theorem outerLoop_cases (w : World) (node_count : Nat) :
    ∀ (remaining i : Nat) (bootstrap_endpoints : List Endpoint),
      i + remaining = node_count → 0 < bootstrap_endpoints.length →
      ((∀ k, i ≤ k → k < node_count →
          w.IsValid (w.Bootstrap k) = true ∧ ∀ j, j < k → PairGood w k j) ∧
        ∃ endpoints1,
          outerLoop w (createNodes node_count) remaining i bootstrap_endpoints
            = (none, endpoints1) ∧
          endpoints1.length + i * (i - 1) / 2
            = bootstrap_endpoints.length + node_count * (node_count - 1) / 2) ∨
      (¬ (∀ k, i ≤ k → k < node_count →
          w.IsValid (w.Bootstrap k) = true ∧ ∀ j, j < k → PairGood w k j) ∧
        ∃ message endpoints1,
          outerLoop w (createNodes node_count) remaining i bootstrap_endpoints
            = (some (Outcome.returned (AssertionResult.AssertionFailure message)),
               endpoints1)) := by
  intro remaining
  induction remaining with
  | zero =>
    intro i bootstrap_endpoints hsum _
    left
    refine ⟨?_, bootstrap_endpoints, rfl, ?_⟩
    · intro k h1 h2; omega
    · have : i = node_count := by omega
      rw [this]
  | succ remaining ih =>
    intro i bootstrap_endpoints hsum hb
    have hi : i < node_count := by omega
    by_cases hvalid : w.IsValid (w.Bootstrap i) = true
    swap
    · right
      refine ⟨fun h => hvalid (h i (Nat.le_refl i) hi).1,
        "Bootstrapping failed for " ++ (Node.new (Int.ofNat i)).kId_, bootstrap_endpoints, ?_⟩
      have hfalse : w.IsValid (w.Bootstrap i) = false := by simpa using hvalid
      simp only [outerLoop, createNodes_index node_count i hi, hfalse]
      rfl
    rcases innerLoop_cases w node_count (w.Bootstrap i) i hi i 0 bootstrap_endpoints
      (by omega) hb with ⟨hall, endpoints1, hrun, hlen⟩ | ⟨hnot, message, endpoints1, hrun⟩
    · rcases ih (i + 1) endpoints1 (by omega) (by omega) with
        ⟨hrest, endpoints2, hrun2, hlen2⟩ | ⟨hnot, message, endpoints2, hrun2⟩
      · left
        refine ⟨?_, endpoints2, ?_, ?_⟩
        · intro k h1 h2
          rcases Nat.eq_or_lt_of_le h1 with rfl | hlt
          · exact ⟨hvalid, fun j hj => hall j (Nat.zero_le j) hj⟩
          · exact hrest k hlt h2
        · simp only [outerLoop, createNodes_index node_count i hi, hvalid, hrun, hrun2]
          rfl
        · rw [pairs_succ] at hlen2
          omega
      · right
        refine ⟨fun h => hnot (fun k h1 h2 => h k (by omega) h2), message, endpoints2, ?_⟩
        simp only [outerLoop, createNodes_index node_count i hi, hvalid, hrun, hrun2]
        rfl
    · right
      refine ⟨fun h => hnot (fun k _ h2 => (h i (Nat.le_refl i) hi).2 k h2), message,
        endpoints1, ?_⟩
      simp only [outerLoop, createNodes_index node_count i hi, hvalid, hrun]
      rfl

theorem le_one_add_pairs (i : Nat) : i ≤ 1 + i * (i - 1) / 2 := by
  induction i with
  | zero => omega
  | succ i ih => rw [pairs_succ]; omega

theorem outerLoop_entry (w : World) (node_count : Nat) (endpoint0 endpoint1 : Endpoint)
    (hgood : ∀ k, 2 ≤ k → k < node_count →
      w.IsValid (w.Bootstrap k) = true ∧ ∀ j, j < k → PairGood w k j) :
    ∀ i, 2 ≤ i → i ≤ node_count →
      ∃ endpoints_i : List Endpoint,
        endpoints_i.length = 1 + i * (i - 1) / 2 ∧
        outerLoop w (createNodes node_count) (node_count - 2) 2 [endpoint0, endpoint1]
          = outerLoop w (createNodes node_count) (node_count - i) i endpoints_i := by
  intro i hi
  induction i, hi using Nat.le_induction with
  | base => intro _; exact ⟨[endpoint0, endpoint1], rfl, rfl⟩
  | succ i hi ih =>
    intro hle
    obtain ⟨endpoints_i, hlen, hrun⟩ := ih (by omega)
    have hlt : i < node_count := by omega
    obtain ⟨hvalid, hpairs⟩ := hgood i hi hlt
    rcases innerLoop_cases w node_count (w.Bootstrap i) i hlt i 0 endpoints_i (by omega)
      (by rw [hlen]; omega) with ⟨_, endpoints1, hinner, hlen1⟩ | ⟨hnot, _⟩
    · refine ⟨endpoints1, ?_, ?_⟩
      · rw [hlen1, hlen, pairs_succ]; omega
      · rw [hrun]
        have e : node_count - i = (node_count - (i + 1)) + 1 := by omega
        rw [e]
        simp only [outerLoop, createNodes_index node_count i hlt, hvalid, hinner]
        rfl
    · exact absurd (fun k _ h2 => hpairs k h2) hnot

theorem MessagesGood_symm (w : World) (a b : Nat) (h : MessagesGood w a b) :
    MessagesGood w b a :=
  ⟨h.2.1, h.1, h.2.2.2, h.2.2.1⟩

theorem SetupNetwork_eq (w : World) (random : Nat → Nat) (fuel : Nat) (ports : PortState)
    (nodes : List Node) (bootstrap_endpoints : List Endpoint) (node_count : Int)
    (h2 : 2 ≤ node_count) (port0 port1 : Nat) (ports1 ports2 : PortState)
    (hp0 : GetRandomPort random fuel ports = some (port0, ports1))
    (hp1 : GetRandomPort random fuel ports1 = some (port1, ports2)) :
    SetupNetwork w random fuel ports nodes bootstrap_endpoints node_count =
      match setupFirstTwo w (createNodes node_count.toNat) ⟨w.GetLocalIp, port0⟩
          ⟨w.GetLocalIp, port1⟩ with
      | Except.error outcome =>
        some { outcome := outcome, nodes := createNodes node_count.toNat,
               bootstrap_endpoints := [], ports := ports2 }
      | Except.ok _ =>
        match outerLoop w (createNodes node_count.toNat) (node_count.toNat - 2) 2
            [⟨w.GetLocalIp, port0⟩, ⟨w.GetLocalIp, port1⟩] with
        | (some outcome, bootstrap_endpoints1) =>
          some { outcome := outcome, nodes := createNodes node_count.toNat,
                 bootstrap_endpoints := bootstrap_endpoints1, ports := ports2 }
        | (none, bootstrap_endpoints1) =>
          some { outcome := Outcome.returned AssertionResult.AssertionSuccess,
                 nodes := createNodes node_count.toNat,
                 bootstrap_endpoints := bootstrap_endpoints1, ports := ports2 } := by
  have hlt : ¬ node_count < 2 := by omega
  simp only [SetupNetwork, hlt, if_false, hp0, hp1]

/-- The outcome of a run for at least two nodes, by whether every external call succeeded. -/
theorem SetupNetwork_cases (w : World) (random : Nat → Nat) (fuel : Nat) (ports : PortState)
    (nodes : List Node) (bootstrap_endpoints : List Endpoint) (node_count : Int)
    (h2 : 2 ≤ node_count) (port0 port1 : Nat) (ports1 ports2 : PortState)
    (hp0 : GetRandomPort random fuel ports = some (port0, ports1))
    (hp1 : GetRandomPort random fuel ports1 = some (port1, ports2)) :
    (AllGood w node_count.toNat ⟨w.GetLocalIp, port0⟩ ⟨w.GetLocalIp, port1⟩ ∧
      ∃ endpoints1,
        SetupNetwork w random fuel ports nodes bootstrap_endpoints node_count =
          some { outcome := Outcome.returned AssertionResult.AssertionSuccess,
                 nodes := createNodes node_count.toNat,
                 bootstrap_endpoints := endpoints1, ports := ports2 } ∧
        endpoints1.length = 1 + node_count.toNat * (node_count.toNat - 1) / 2) ∨
    (¬ AllGood w node_count.toNat ⟨w.GetLocalIp, port0⟩ ⟨w.GetLocalIp, port1⟩ ∧
      ∃ message endpoints1,
        SetupNetwork w random fuel ports nodes bootstrap_endpoints node_count =
          some { outcome := Outcome.returned (AssertionResult.AssertionFailure message),
                 nodes := createNodes node_count.toNat,
                 bootstrap_endpoints := endpoints1, ports := ports2 }) := by
  rw [SetupNetwork_eq w random fuel ports nodes bootstrap_endpoints node_count h2 port0 port1
    ports1 ports2 hp0 hp1]
  have hn : 2 ≤ node_count.toNat := by omega
  rcases setupFirstTwo_cases w node_count.toNat hn ⟨w.GetLocalIp, port0⟩ ⟨w.GetLocalIp, port1⟩
    with ⟨hfirst, hrun⟩ | ⟨hnot, message, hrun⟩
  · rcases outerLoop_cases w node_count.toNat (node_count.toNat - 2) 2
      [⟨w.GetLocalIp, port0⟩, ⟨w.GetLocalIp, port1⟩] (by omega) (by simp) with
      ⟨hall, endpoints1, hloop, hlen⟩ | ⟨hnot, message, endpoints1, hloop⟩
    · left
      refine ⟨⟨hfirst, hall⟩, endpoints1, ?_, ?_⟩
      · simp only [hrun, hloop]
      · simp only [List.length_cons, List.length_nil] at hlen
        omega
    · right
      refine ⟨fun h => hnot h.2, message, endpoints1, ?_⟩
      simp only [hrun, hloop]
  · right
    refine ⟨fun h => hnot h.1, message, [], ?_⟩
    simp only [hrun]

theorem innerLoop_entry (w : World) (node_count : Nat) (chosen_endpoint : Endpoint) (i : Nat)
    (hi : i < node_count) (bootstrap_endpoints : List Endpoint)
    (hb : 0 < bootstrap_endpoints.length) (hgood : ∀ k, k < i → PairGood w i k) :
    ∀ j, j ≤ i →
      ∃ endpoints_j : List Endpoint,
        endpoints_j.length = bootstrap_endpoints.length + j ∧
        innerLoop w (createNodes node_count) chosen_endpoint i i 0 bootstrap_endpoints
          = innerLoop w (createNodes node_count) chosen_endpoint i (i - j) j endpoints_j := by
  intro j
  induction j with
  | zero => intro _; exact ⟨bootstrap_endpoints, rfl, rfl⟩
  | succ j ih =>
    intro hle
    obtain ⟨endpoints_j, hlen, hrun⟩ := ih (by omega)
    rcases connectPair_cases w node_count endpoints_j chosen_endpoint i j hi (by omega)
      (by rw [hlen]; omega) with ⟨_, hc⟩ | ⟨hnot, _⟩
    · refine ⟨endpoints_j ++ [(w.GetAvailableEndpoint i j).2.external], ?_, ?_⟩
      · simp [hlen]; omega
      · rw [hrun]
        have e : i - j = (i - (j + 1)) + 1 := by omega
        rw [e]
        simp only [innerLoop, hc]
    · exact absurd (hgood j (by omega)) hnot

/-- C8: for every `node_count >= 2`, once the two ports are drawn `SetupNetwork` returns, and
it returns `AssertionSuccess` exactly when every external call succeeded; so on
`AssertionSuccess`, for every pair of nodes it connected (node 1 with node 0, and each later
node `i` with every earlier node `j`), both `Add` calls returned `kSuccess` and each of the two
futures completed within the wait holding exactly one message, the validation data of the
other node; with any other outcome of `Bootstrap`, `GetAvailableEndpoint`, `Add` or the message
wait it returns `AssertionFailure`. -/
theorem SetupNetwork_success_iff (w : World) (random : Nat → Nat) (fuel : Nat)
    (ports : PortState) (nodes : List Node) (bootstrap_endpoints : List Endpoint)
    (node_count : Int) (h2 : 2 ≤ node_count) (port0 port1 : Nat) (ports1 ports2 : PortState)
    (hp0 : GetRandomPort random fuel ports = some (port0, ports1))
    (hp1 : GetRandomPort random fuel ports1 = some (port1, ports2)) :
    ∃ result, SetupNetwork w random fuel ports nodes bootstrap_endpoints node_count = some result ∧
      (result.outcome = Outcome.returned AssertionResult.AssertionSuccess ↔
        AllGood w node_count.toNat ⟨w.GetLocalIp, port0⟩ ⟨w.GetLocalIp, port1⟩) ∧
      (result.outcome = Outcome.returned AssertionResult.AssertionSuccess →
        ∀ i j, j < i → i < node_count.toNat →
          w.Add i j = w.kSuccess ∧ w.Add j i = w.kSuccess ∧ MessagesGood w i j) ∧
      (¬ AllGood w node_count.toNat ⟨w.GetLocalIp, port0⟩ ⟨w.GetLocalIp, port1⟩ →
        ∃ message,
          result.outcome = Outcome.returned (AssertionResult.AssertionFailure message)) := by
  have hpairs : AllGood w node_count.toNat ⟨w.GetLocalIp, port0⟩ ⟨w.GetLocalIp, port1⟩ →
      ∀ i j, j < i → i < node_count.toNat →
        w.Add i j = w.kSuccess ∧ w.Add j i = w.kSuccess ∧ MessagesGood w i j := by
    intro hgood i j hji hin
    by_cases hi2 : 2 ≤ i
    · obtain ⟨_, _, h3, h4, h5⟩ := (hgood.2 i hi2 hin).2 j hji
      exact ⟨h3, h4, h5⟩
    · have hi1 : i = 1 := by omega
      have hj0 : j = 0 := by omega
      subst hi1 hj0
      obtain ⟨_, _, h3, h4, h5⟩ := hgood.1
      exact ⟨h4, h3, MessagesGood_symm w 0 1 h5⟩
  rcases SetupNetwork_cases w random fuel ports nodes bootstrap_endpoints node_count h2 port0
    port1 ports1 ports2 hp0 hp1 with ⟨hgood, endpoints1, hrun, _⟩ | ⟨hnot, message, endpoints1, hrun⟩
  · exact ⟨_, hrun, ⟨fun _ => hgood, fun _ => rfl⟩, fun _ => hpairs hgood,
      fun h => absurd hgood h⟩
  · refine ⟨_, hrun, ⟨fun h => ?_, fun h => absurd h hnot⟩, fun h => ?_, fun _ => ⟨message, rfl⟩⟩
    · simp at h
    · simp at h

theorem goodWorld_AllGood :
    AllGood goodWorld 3 ⟨goodWorld.GetLocalIp, 1025⟩ ⟨goodWorld.GetLocalIp, 1026⟩ := by
  refine ⟨⟨rfl, rfl, rfl, rfl, rfl, rfl, rfl, rfl⟩, ?_⟩
  intro i hi hlt
  have h : i = 2 := by omega
  subst h
  exact ⟨rfl, fun j _ => ⟨rfl, rfl, rfl, rfl, rfl, rfl, rfl, rfl⟩⟩

theorem duplicateWorld_not_AllGood :
    ¬ AllGood duplicateWorld 3 ⟨duplicateWorld.GetLocalIp, 1025⟩
      ⟨duplicateWorld.GetLocalIp, 1026⟩ := by
  intro h
  have h1 := ((h.2 2 (by decide) (by decide)).2 1 (by decide)).2.2.2.2.2.2.1
  have h2 := congrArg List.length h1
  simp [duplicateWorld] at h2

theorem SetupNetwork_success_iff_witness :
    (2 : Int) ≤ 3 ∧
    GetRandomPort (fun n => n) 1 PortState.initial = some (1025, ⟨[1025], 1⟩) ∧
    GetRandomPort (fun n => n) 1 ⟨[1025], 1⟩ = some (1026, ⟨[1026, 1025], 2⟩) ∧
    (∃ result, SetupNetwork goodWorld (fun n => n) 1 PortState.initial [] [] 3 = some result ∧
      result.outcome = Outcome.returned AssertionResult.AssertionSuccess ∧
      ∀ i j, j < i → i < 3 →
        goodWorld.Add i j = goodWorld.kSuccess ∧ goodWorld.Add j i = goodWorld.kSuccess ∧
        MessagesGood goodWorld i j) ∧
    (∃ result message,
      SetupNetwork duplicateWorld (fun n => n) 1 PortState.initial [] [] 3 = some result ∧
      result.outcome = Outcome.returned (AssertionResult.AssertionFailure message)) := by
  refine ⟨by decide, by decide, by decide, ?_, ?_⟩
  · obtain ⟨result, hrun, hiff, hpairs, _⟩ :=
      SetupNetwork_success_iff goodWorld (fun n => n) 1 PortState.initial [] [] 3 (by decide)
        1025 1026 ⟨[1025], 1⟩ ⟨[1026, 1025], 2⟩ (by decide) (by decide)
    exact ⟨result, hrun, hiff.mpr goodWorld_AllGood, hpairs (hiff.mpr goodWorld_AllGood)⟩
  · obtain ⟨result, hrun, _, _, hfail⟩ :=
      SetupNetwork_success_iff duplicateWorld (fun n => n) 1 PortState.initial [] [] 3
        (by decide) 1025 1026 ⟨[1025], 1⟩ ⟨[1026, 1025], 2⟩ (by decide) (by decide)
    obtain ⟨message, hmessage⟩ := hfail duplicateWorld_not_AllGood
    exact ⟨result, message, hrun, hmessage⟩

/-- C10: for every `node_count >= 2` and every run in which all external calls succeed,
`SetupNetwork` returns `AssertionSuccess` without a read past the end of a vector: outer
iteration `i` (`2 <= i < node_count`) is entered with `1 + i*(i-1)/2 >= i` entries in
`bootstrap_endpoints`, its inner iteration `j < i` finds `j` entries more and reads
`bootstrap_endpoints[j]` within them; the return leaves `bootstrap_endpoints` with exactly
`1 + node_count*(node_count-1)/2` entries and `nodes` with exactly `node_count` entries. -/
theorem SetupNetwork_bootstrap_endpoints_in_bounds (w : World) (random : Nat → Nat)
    (fuel : Nat) (ports : PortState) (nodes : List Node) (bootstrap_endpoints : List Endpoint)
    (node_count : Int) (h2 : 2 ≤ node_count) (port0 port1 : Nat) (ports1 ports2 : PortState)
    (hp0 : GetRandomPort random fuel ports = some (port0, ports1))
    (hp1 : GetRandomPort random fuel ports1 = some (port1, ports2))
    (hgood : AllGood w node_count.toNat ⟨w.GetLocalIp, port0⟩ ⟨w.GetLocalIp, port1⟩) :
    (∃ result,
      SetupNetwork w random fuel ports nodes bootstrap_endpoints node_count = some result ∧
      result.outcome = Outcome.returned AssertionResult.AssertionSuccess ∧
      result.bootstrap_endpoints.length
        = 1 + node_count.toNat * (node_count.toNat - 1) / 2 ∧
      result.nodes.length = node_count.toNat) ∧
    (∀ i, 2 ≤ i → i < node_count.toNat →
      ∃ endpoints_i : List Endpoint,
        outerLoop w (createNodes node_count.toNat) (node_count.toNat - 2) 2
            [⟨w.GetLocalIp, port0⟩, ⟨w.GetLocalIp, port1⟩]
          = outerLoop w (createNodes node_count.toNat) (node_count.toNat - i) i endpoints_i ∧
        endpoints_i.length = 1 + i * (i - 1) / 2 ∧
        i ≤ endpoints_i.length ∧
        ∀ j, j < i →
          ∃ endpoints_j : List Endpoint,
            innerLoop w (createNodes node_count.toNat) (w.Bootstrap i) i i 0 endpoints_i
              = innerLoop w (createNodes node_count.toNat) (w.Bootstrap i) i (i - j) j
                  endpoints_j ∧
            endpoints_j.length = endpoints_i.length + j ∧
            ∃ endpoint, index endpoints_j j = Except.ok endpoint) := by
  constructor
  · rcases SetupNetwork_cases w random fuel ports nodes bootstrap_endpoints node_count h2 port0
      port1 ports1 ports2 hp0 hp1 with ⟨_, endpoints1, hrun, hlen⟩ | ⟨hnot, _⟩
    · exact ⟨_, hrun, rfl, hlen, createNodes_length _⟩
    · exact absurd hgood hnot
  · intro i hi hlt
    obtain ⟨endpoints_i, hlen, hrun⟩ :=
      outerLoop_entry w node_count.toNat ⟨w.GetLocalIp, port0⟩ ⟨w.GetLocalIp, port1⟩ hgood.2
        i hi (by omega)
    have hle := le_one_add_pairs i
    refine ⟨endpoints_i, hrun, hlen, by omega, ?_⟩
    intro j hj
    obtain ⟨endpoints_j, hlenj, hrunj⟩ :=
      innerLoop_entry w node_count.toNat (w.Bootstrap i) i hlt endpoints_i (by omega)
        (hgood.2 i hi hlt).2 j (by omega)
    have hjlt : j < endpoints_j.length := by omega
    refine ⟨endpoints_j, hrunj, hlenj, endpoints_j.get ⟨j, hjlt⟩, ?_⟩
    simp [index, List.getElem?_eq_getElem hjlt]

theorem SetupNetwork_bootstrap_endpoints_in_bounds_witness :
    (2 : Int) ≤ 3 ∧
    GetRandomPort (fun n => n) 1 PortState.initial = some (1025, ⟨[1025], 1⟩) ∧
    GetRandomPort (fun n => n) 1 ⟨[1025], 1⟩ = some (1026, ⟨[1026, 1025], 2⟩) ∧
    AllGood goodWorld 3 ⟨goodWorld.GetLocalIp, 1025⟩ ⟨goodWorld.GetLocalIp, 1026⟩ ∧
    (SetupNetwork goodWorld (fun n => n) 1 PortState.initial [] [] 3).map
        (fun result => (result.outcome, result.bootstrap_endpoints.length, result.nodes.length))
      = some (Outcome.returned AssertionResult.AssertionSuccess, 4, 3) ∧
    ∃ result,
      SetupNetwork goodWorld (fun n => n) 1 PortState.initial [] [] 3 = some result ∧
      result.outcome = Outcome.returned AssertionResult.AssertionSuccess ∧
      result.bootstrap_endpoints.length = 1 + (3 : Int).toNat * ((3 : Int).toNat - 1) / 2 ∧
      result.nodes.length = (3 : Int).toNat :=
  ⟨by decide, by decide, by decide, goodWorld_AllGood, by decide,
    (SetupNetwork_bootstrap_endpoints_in_bounds goodWorld (fun n => n) 1 PortState.initial [] []
      3 (by decide) 1025 1026 ⟨[1025], 1⟩ ⟨[1026, 1025], 2⟩ (by decide) (by decide)
      goodWorld_AllGood).1⟩

end maidsafe.rudp.test

/-! ## `Node`: the future for messages -/

namespace maidsafe.rudp.test

open NodeState

theorem messageReceived_of_promiseInv (self : NodeState) (message : String)
    (h : self.promiseInv) :
    (self.promised_ = true ∧
        self.total_message_count_expectation_ ≤ (self.messages_ ++ [message]).length ∧
      self.messageReceived message =
        Run.running
          { self with
            messages_ := self.messages_ ++ [message],
            message_promise_ := { set_values := [self.messages_ ++ [message]] },
            promised_ := false,
            total_message_count_expectation_ := 0 }) ∨
    (¬ (self.promised_ = true ∧
        self.total_message_count_expectation_ ≤ (self.messages_ ++ [message]).length) ∧
      self.messageReceived message
        = Run.running { self with messages_ := self.messages_ ++ [message] }) := by
  by_cases hc : self.promised_ = true ∧
      self.total_message_count_expectation_ ≤ (self.messages_ ++ [message]).length
  · left
    refine ⟨hc.1, hc.2, ?_⟩
    have hempty := h.1 hc.1
    have htrue : (self.promised_ &&
        decide ((self.messages_ ++ [message]).length ≥ self.total_message_count_expectation_))
        = true := by
      rw [hc.1, Bool.true_and, decide_eq_true_eq]
      exact hc.2
    simp only [messageReceived, SetPromiseIfDone, htrue, if_true, Promise.satisfied,
      Promise.set_value, hempty, List.isEmpty_nil, Bool.not_true, Bool.false_eq_true, if_false,
      List.nil_append]
  · right
    refine ⟨hc, ?_⟩
    have hfalse : (self.promised_ &&
        decide ((self.messages_ ++ [message]).length ≥ self.total_message_count_expectation_))
        = false := by
      cases hp : self.promised_
      · rfl
      · simp only [Bool.true_and, decide_eq_false_iff_not]
        exact fun hle => hc ⟨hp, hle⟩
    simp only [messageReceived, SetPromiseIfDone, hfalse, Bool.false_eq_true, if_false]

theorem step_of_promiseInv (self : NodeState) (operation : Operation)
    (hop : operation.isGetFutureForMessages = false) (h : self.promiseInv) :
    ∃ members, self.step operation = Run.running members ∧ members.promiseInv ∧
      ∀ n, operation.isResetData = false → self.sizeInv n → members.sizeInv n := by
  cases operation with
  | setExpectation m => simp [Operation.isGetFutureForMessages] at hop
  | setPromised => simp [Operation.isGetFutureForMessages] at hop
  | swapPromise => simp [Operation.isGetFutureForMessages] at hop
  | connectionLost endpoint => exact ⟨_, rfl, h, fun _ _ hs => hs⟩
  | ResetData =>
    refine ⟨_, rfl, h, ?_⟩
    intro n hreset
    simp [Operation.isResetData] at hreset
  | messageReceived message =>
    rcases messageReceived_of_promiseInv self message h with ⟨hp, hle, hrun⟩ | ⟨_, hrun⟩
    · refine ⟨_, hrun, ⟨fun hprom => ?_, by simp⟩, ?_⟩
      · simp at hprom
      · intro n _ hs
        refine ⟨fun hprom => ?_, ?_⟩
        · simp at hprom
        · intro value hvalue
          simp only [List.mem_singleton] at hvalue
          rw [hvalue, ← hs.1 hp]
          exact hle
    · exact ⟨_, hrun, h, fun _ _ hs => hs⟩

/-- When nothing runs between the three writes of `GetFutureForMessages(n)`, as under the
mutex, and callbacks and `ResetData` calls follow: no exception is thrown, the promise of the
call has been given a value at most once, and without a `ResetData` that value holds at least
`n` messages. -/
theorem locked_promise_fulfilled_at_most_once (operations : List Operation) :
    ∀ self : NodeState, self.promiseInv →
      (∀ op ∈ operations, op.isGetFutureForMessages = false) →
      ∃ members, self.run operations = Run.running members ∧ members.promiseInv ∧
        ∀ n, (∀ op ∈ operations, op.isResetData = false) → self.sizeInv n →
          members.sizeInv n := by
  induction operations with
  | nil => intro self h _; exact ⟨self, rfl, h, fun _ _ hs => hs⟩
  | cons op rest ih =>
    intro self h hops
    obtain ⟨members, hstep, hinv, hsize⟩ :=
      step_of_promiseInv self op (hops op (List.mem_cons_self _ _)) h
    obtain ⟨final, hrun, hfinal, hsizes⟩ :=
      ih members hinv (fun o ho => hops o (List.mem_cons_of_mem _ ho))
    refine ⟨final, ?_, hfinal, ?_⟩
    · simp only [NodeState.run, hstep, hrun]
    · intro n hresets hs
      exact hsizes n (fun o ho => hresets o (List.mem_cons_of_mem _ ho))
        (hsize n (hresets op (List.mem_cons_self _ _)) hs)

theorem GetFutureForMessages_invs (self : NodeState) (n : Nat) :
    (self.GetFutureForMessages n).promiseInv ∧ (self.GetFutureForMessages n).sizeInv n := by
  refine ⟨⟨fun _ => rfl, ?_⟩, ⟨fun _ => rfl, ?_⟩⟩
  · simp [GetFutureForMessages, swapPromise]
  · intro v hv
    simp [GetFutureForMessages, swapPromise] at hv

/-- After an uninterrupted `GetFutureForMessages(n)` and any callbacks and `ResetData` calls
the promise created by the call has at most one value, and without a `ResetData` the value
holds at least `n` messages. -/
theorem uninterrupted_GetFutureForMessages (self : NodeState) (n : Nat)
    (operations : List Operation)
    (hops : ∀ op ∈ operations, op.isGetFutureForMessages = false) :
    ∃ members, (self.GetFutureForMessages n).run operations = Run.running members ∧
      members.message_promise_.set_values.length ≤ 1 ∧
      ((∀ op ∈ operations, op.isResetData = false) →
        ∀ value ∈ members.message_promise_.set_values, n ≤ value.length) := by
  obtain ⟨members, hrun, hinv, hsize⟩ :=
    locked_promise_fulfilled_at_most_once operations (self.GetFutureForMessages n)
      (GetFutureForMessages_invs self n).1 hops
  exact ⟨members, hrun, hinv.2,
    fun hresets => (hsize n hresets (GetFutureForMessages_invs self n).2).2⟩

end maidsafe.rudp.test
